import Mathlib

/-!
Verification development for the qt-spy repository.

This file gives a shallow embedding, in Lean 4, of the core data structures
and algorithms of qt-spy — the client connection engine and deferred actions
(src/cli/src/main.cpp), the ptrace-based injection loader
(src/cli/src/main.cpp, class PtraceInjector), the frame codec
(src/bridge/src/bridge_client.cpp), the probe session state machine
(src/probe/src/probe.cpp), and the endpoint-name derivation
(src/probe/src/probe.cpp) — together with theorems settling the spec's
claims about them.

Modelling conventions:
* Machine integers are modelled as `Nat` with explicit `% 2 ^ 64` at the
  points where the C++ relies on unsigned wraparound.
* Byte buffers are `List Nat`.
* Qt collaborator classes (QJsonDocument, QHash, QSet, the meta-object
  reflection system) are modelled at their observable boundary: JSON values
  as an inductive type, hashes as association lists with overwrite-insert,
  object property enumeration as an oracle supplied by the environment.
-/

namespace QtSpy

/-- Protocol version constant, `qt_spy::protocol::kVersion` in
src/probe/include/qt_spy/protocol.h. -/
def kVersion : Int := 1

/-! ## Deferred one-shot client actions

Embedding of `struct ActionTarget` from src/cli/src/main.cpp. -/

/-- The `ActionTarget::Kind` enumeration. -/
inductive ActionKind where
  | noTarget
  | byId
  | firstRoot
  deriving DecidableEq, Repr

/-- The `ActionTarget` record: a deferred select / fetch-properties action. -/
structure ActionTarget where
  kind : ActionKind
  value : String
  sticky : Bool
  completed : Bool
  deriving DecidableEq, Repr

/-- `ActionTarget::pending`: the action still has a target and has not
completed. -/
def ActionTarget.pending (t : ActionTarget) : Bool :=
  decide (t.kind ≠ ActionKind.noTarget) && !t.completed

/-- `ActionTarget::markCompleted`: a sticky action is marked completed and
keeps its target; a non-sticky action is cleared entirely. -/
def ActionTarget.markCompleted (t : ActionTarget) : ActionTarget :=
  if t.sticky then { t with completed := true }
  else { t with kind := ActionKind.noTarget, value := "", completed := false }

/-- `ActionTarget::resetForReconnect`, called from
`Client::resetConnectionState` on every disconnect: a sticky action has its
completed flag cleared (so it becomes pending again); a non-sticky action is
left untouched. -/
def ActionTarget.resetForReconnect (t : ActionTarget) : ActionTarget :=
  if t.sticky then { t with completed := false } else t

/-! ## Client reconnect backoff

Embedding of `Client::scheduleReconnect` and `Client::retryTimeout` from
src/cli/src/main.cpp. -/

/-- The retry-relevant fragment of the `Client` state: the consecutive
retry-attempt counter `m_retryAttempt`. -/
structure RetryState where
  retryAttempt : Nat
  deriving DecidableEq, Repr

/-- The delay, in milliseconds, computed by `Client::scheduleReconnect`:
`500 * std::min(5, std::max(1, m_retryAttempt + 1))`. -/
def scheduleReconnectDelay (s : RetryState) : Nat :=
  500 * min 5 (max 1 (s.retryAttempt + 1))

/-- The state effect of `Client::retryTimeout` when the retry timer fires:
if the configured maximum is non-negative and already reached, the client
exits with a fatal error (`none`); otherwise the attempt counter is
incremented and a new connection attempt starts. -/
def retryTimeoutAdvance (maxRetries : Int) (s : RetryState) : Option RetryState :=
  if 0 ≤ maxRetries ∧ maxRetries ≤ (s.retryAttempt : Int) then none
  else some ⟨s.retryAttempt + 1⟩

/-- The list of delays scheduled by `k` consecutive reconnect cycles
(each cycle: `scheduleReconnect` starts the timer, the timer fires,
`retryTimeout` advances and the next connection attempt fails again),
starting from retry state `s`, with no intervening successful connection. -/
def consecutiveRetryDelays (maxRetries : Int) : Nat → RetryState → List Nat
  | 0, _ => []
  | k + 1, s =>
    scheduleReconnectDelay s ::
      match retryTimeoutAdvance maxRetries s with
      | some s2 => consecutiveRetryDelays maxRetries k s2
      | none => []

/-! ## Client connect / hello handling

Embedding of `Client::onConnected`, `Client::sendAttach` and
`Client::handleHello` from src/cli/src/main.cpp, and of
`ConnectionManager::onSocketConnected`, `ConnectionManager::onHelloReceived`
and the hello-timeout callback from src/inspector/src/connection_manager.cpp.
Side effects (timer starts/stops, outgoing requests) are recorded as an
effect list. -/

/-- The observable side effects of the connect/hello handlers. -/
inductive CliEffect where
  | stopRetryTimer
  | sendAttachMsg
  | startRetryTimer (ms : Nat)
  | startDetachTimer (ms : Nat)
  | startHelloTimeout (ms : Nat)
  | sendSnapshotRequest
  | sendSelectNode (id : String)
  | sendPropertiesRequest (id : String)
  | emitConnectionError
  deriving DecidableEq, Repr

/-- Timer-starting effects. -/
def isTimerStart : CliEffect → Bool
  | CliEffect.startRetryTimer _ => true
  | CliEffect.startDetachTimer _ => true
  | CliEffect.startHelloTimeout _ => true
  | _ => false

/-- The connection-lifecycle fragment of the CLI `Client` state. -/
structure CliSt where
  retryAttempt : Nat
  attachSent : Bool
  attached : Bool
  serverNamesRotated : Bool
  selectTarget : ActionTarget
  propertiesTarget : ActionTarget
  deriving DecidableEq, Repr

/-- A CLI client state fresh out of the constructor. -/
def cliInit : CliSt :=
  ⟨0, false, false, false, ⟨ActionKind.noTarget, "", false, false⟩,
    ⟨ActionKind.noTarget, "", false, false⟩⟩

/-- `Client::sendAttach`: send once per connection. -/
def cliSendAttach (s : CliSt) : CliSt × List CliEffect :=
  if s.attachSent then (s, [])
  else ({ s with attachSent := true }, [CliEffect.sendAttachMsg])

/-- `Client::onConnected`: stop the retry timer, reset the per-connection
flags, and send attach. -/
def cliOnConnected (s : CliSt) : CliSt × List CliEffect :=
  let s1 := { s with retryAttempt := 0, attachSent := false, attached := false,
                     serverNamesRotated := false }
  let r := cliSendAttach s1
  (r.1, CliEffect.stopRetryTimer :: r.2)

/-- The per-target firing step of `Client::handleHello`: a pending
id-targeted action is sent (when its id is non-empty, per
`sendSelect` / `requestProperties`) and completed. -/
def fireIdTarget (t : ActionTarget) (mk : String → CliEffect) :
    ActionTarget × List CliEffect :=
  if t.pending = true ∧ t.kind = ActionKind.byId then
    (t.markCompleted, if t.value = "" then [] else [mk t.value])
  else (t, [])

/-- `Client::handleHello`: mark attached, request a snapshot, and fire the
deferred id-targeted select / properties actions (in that order). -/
def cliHandleHello (s : CliSt) : CliSt × List CliEffect :=
  let rsel := fireIdTarget s.selectTarget CliEffect.sendSelectNode
  let rprop := fireIdTarget s.propertiesTarget CliEffect.sendPropertiesRequest
  ({ s with attached := true, selectTarget := rsel.1, propertiesTarget := rprop.1 },
    CliEffect.sendSnapshotRequest :: (rsel.2 ++ rprop.2))

/-- The `ConnectionManager::ConnectionState` enumeration. -/
inductive CMState where
  | disconnected
  | connecting
  | connected
  | attachedState
  | errorState
  deriving DecidableEq, Repr

/-- The hello-relevant fragment of the inspector `ConnectionManager` state. -/
structure CMSt where
  state : CMState
  retryCount : Nat
  deriving DecidableEq, Repr

/-- `ConnectionManager::onSocketConnected`: enter Connected, reset the
retry count, send attach, and start the single-shot 5000 ms hello
timeout. -/
def cmOnSocketConnected (_s : CMSt) : CMSt × List CliEffect :=
  (⟨CMState.connected, 0⟩,
    [CliEffect.sendAttachMsg, CliEffect.startHelloTimeout 5000])

/-- `ConnectionManager::onHelloReceived`: transition to Attached. -/
def cmOnHelloReceived (s : CMSt) : CMSt :=
  { s with state := CMState.attachedState }

/-- The 5000 ms single-shot lambda of `onSocketConnected`: if the manager
is still merely Connected when the timer fires, report an error. -/
def cmHelloTimeoutFire (s : CMSt) : CMSt × List CliEffect :=
  if s.state = CMState.connected then
    ({ s with state := CMState.errorState }, [CliEffect.emitConnectionError])
  else (s, [])

/-! ## Endpoint name derivation

Embedding of `sanitizeProcessName` and `defaultServerName` from
src/probe/src/probe.cpp. -/

/-- Membership in the character class `[A-Za-z0-9_]` of the first
sanitization regex. -/
def isAllowedChar (c : Char) : Bool :=
  (65 ≤ c.toNat && c.toNat ≤ 90) || (97 ≤ c.toNat && c.toNat ≤ 122) ||
    (48 ≤ c.toNat && c.toNat ≤ 57) || c.toNat = 95

/-- ASCII whitespace as removed by `QString::trimmed` (the non-ASCII space
code points cannot occur after the replacement pass, which maps them
to an underscore). -/
def isSpaceChar (c : Char) : Bool :=
  c.toNat = 32 || (9 ≤ c.toNat && c.toNat ≤ 13)

/-- First regex pass of `sanitizeProcessName`: every character outside
`[A-Za-z0-9_]` becomes an underscore. -/
def replaceDisallowed (s : List Char) : List Char :=
  s.map fun c => if isAllowedChar c then c else '_'

/-- Second regex pass of `sanitizeProcessName`: each maximal run of
underscores collapses to a single underscore. -/
def collapseUnderscores : List Char → List Char
  | [] => []
  | [c] => [c]
  | c :: d :: rest =>
    if c = '_' ∧ d = '_' then collapseUnderscores (d :: rest)
    else c :: collapseUnderscores (d :: rest)

/-- `QString::trimmed`: remove leading and trailing whitespace. -/
def trimChars (s : List Char) : List Char :=
  ((s.dropWhile isSpaceChar).reverse.dropWhile isSpaceChar).reverse

/-- `sanitizeProcessName` from src/probe/src/probe.cpp: replace every
character outside `[A-Za-z0-9_]` with an underscore, collapse repeated
underscores, and trim. -/
def sanitizeProcessName (name : String) : String :=
  String.mk (trimChars (collapseUnderscores (replaceDisallowed name.data)))

/-- `defaultServerName(applicationName, pid)` from src/probe/src/probe.cpp.
The `/proc/<pid>/comm` fallback read is a filesystem effect; it is passed in
as `procComm` (`none` when the file is unavailable, otherwise the trimmed
first line). -/
def resolvedProcessName (applicationName : String) (procComm : Option String) : String :=
  let sanitized := sanitizeProcessName applicationName
  if sanitized = "" then
    match procComm with
    | some commName => sanitizeProcessName commName
    | none => ""
  else sanitized

/-- `defaultServerName(applicationName, pid)` continued: the endpoint name
built from the resolved sanitized name, or the purely numeric fallback. -/
def defaultServerName (applicationName : String) (procComm : Option String)
    (pid : Nat) : String :=
  let sanitized := resolvedProcessName applicationName procComm
  if sanitized ≠ "" then "qt_spy_" ++ sanitized ++ "_" ++ toString pid
  else "qt_spy_" ++ toString pid

/-! ## Frame codec

Embedding of `BridgeClient::writeMessage` and
`BridgeClient::processIncomingBuffer` from src/bridge/src/bridge_client.cpp.
A message is represented by its UTF-8 JSON byte serialization
(`QJsonDocument::toJson(Compact)`, an external Qt collaborator); equal byte
payloads denote equal JSON messages, so the round-trip property of the
repository's framing layer is stated over payload byte lists. -/

/-- Big-endian four-byte encoding of a 32-bit value, as written by
`qToBigEndian<quint32>`. -/
def be32 (n : Nat) : List Nat :=
  [n / 2 ^ 24 % 256, n / 2 ^ 16 % 256, n / 2 ^ 8 % 256, n % 256]

/-- Big-endian read of the first four buffer bytes,
`qFromBigEndian<quint32>` applied to the buffer head. -/
def readBE32 : List Nat → Nat
  | b0 :: b1 :: b2 :: b3 :: _ => ((b0 * 256 + b1) * 256 + b2) * 256 + b3
  | _ => 0

/-- `BridgeClient::writeMessage`: a frame is the 4-byte big-endian length
prefix (the payload size cast to `quint32`) followed by the payload bytes. -/
def encodeFrame (payload : List Nat) : List Nat :=
  be32 (payload.length % 2 ^ 32) ++ payload

/-- `BridgeClient::processIncomingBuffer`: repeatedly strip complete frames
off the front of the receive buffer, returning the decoded payloads in
order together with the remaining (partial-frame) bytes. Byte counts are
`Nat` here; the C++ guard casts the length to `int`, which agrees for frame
lengths below 2^31 (QByteArray sizes are ints, so the encoder never
produces a longer frame; the round-trip theorem assumes that range). -/
def processIncomingBuffer (buffer : List Nat) : List (List Nat) × List Nat :=
  if h4 : buffer.length < 4 then ([], buffer)
  else
    let len := readBE32 buffer
    if buffer.length < len + 4 then ([], buffer)
    else
      let payload := (buffer.drop 4).take len
      let r := processIncomingBuffer (buffer.drop (len + 4))
      (payload :: r.1, r.2)
termination_by buffer.length
decreasing_by simp only [List.length_drop]; omega

/-- One `BridgeClient::handleReadyRead` step: append the newly read chunk
to `m_buffer` and process; the first component accumulates the messages
decoded so far. -/
def feedChunk (acc : List (List Nat) × List Nat) (chunk : List Nat) :
    List (List Nat) × List Nat :=
  let r := processIncomingBuffer (acc.2 ++ chunk)
  (acc.1 ++ r.1, r.2)

/-- Feeding a sequence of socket reads through the bridge decoder, starting
from an empty buffer. -/
def feedChunks (chunks : List (List Nat)) : List (List Nat) × List Nat :=
  chunks.foldl feedChunk ([], [])

/-! ## Injection loader

Embedding of `PtraceInjector::inject` and `PtraceInjector::callRemote` from
src/cli/src/main.cpp (x86_64). Remote memory is word-addressed by byte
address (every access the loader makes is an 8-byte `ptrace` word at an
8-aligned address); `quint64` arithmetic wraps modulo `2 ^ 64`. Each
fallible forward step (attach, register reads/writes, word reads/writes,
resume, wait, trap check) takes its outcome from an explicit fault record,
so the theorems quantify over every combination of failures. Two modelling
choices at the claim's granularity: the restore-path `POKEDATA` writes are
modelled as succeeding, and the remote call itself (the target running
`dlopen`) does not alter the loader's scratch words — the claim is about
the regions the loader itself patched. The path string is taken as its
8-byte-word packing (the `memcpy` loop of `writeRemote`); the word values
are irrelevant to restoration. -/

/-- The wraparound modulus of `quint64` arithmetic. -/
def M64 : Nat := 2 ^ 64

/-- The `user_regs_struct` fields the loader reads or writes; `rest` stands
for the remaining fields, captured and restored wholesale. -/
structure Regs where
  rdi : Nat
  rsi : Nat
  rdx : Nat
  rcx : Nat
  r8 : Nat
  r9 : Nat
  rip : Nat
  rsp : Nat
  rax : Nat
  rest : Nat
  deriving DecidableEq, Repr

/-- Remote memory: an 8-byte word for each byte address. -/
abbrev Mem := Nat → Nat

/-- The observable state of the target process. -/
structure Target where
  mem : Mem
  regs : Regs

/-- Point update of remote memory. -/
def memUpd (m : Mem) (a v : Nat) : Mem :=
  fun w => if w = a then v else m w

/-- Sequential word writes. -/
def writeWords (m : Mem) : List (Nat × Nat) → Mem
  | [] => m
  | (a, v) :: rest => writeWords (memUpd m a v) rest

/-- The word addresses of an `n`-word region starting at `base` (the
`address + offset` additions wrap in `quint64`). -/
def wordAddrs (base n : Nat) : List Nat :=
  (List.range n).map fun k => (base + 8 * k) % M64

/-- `PtraceInjector::MemoryBackup`: a region's address and saved words
(empty data encodes the cleared/absent backup). -/
structure MemoryBackup where
  address : Nat
  data : List Nat

/-- `PtraceInjector::restoreMemory`, with the restore pokes succeeding:
write every saved word back. -/
def restoreMemory (m : Mem) (b : MemoryBackup) : Mem :=
  writeWords m ((wordAddrs b.address b.data.length).zip b.data)

/-- The `restoreState` lambda of `callRemote`: restore each backup in
order, then restore the captured registers. -/
def restoreStateF (t : Target) (original : Regs) (backups : List MemoryBackup) : Target :=
  { mem := backups.foldl restoreMemory t.mem, regs := original }

/-- One fault schedule for a loader run: the outcome of every fallible
forward step. A `some k` read/poke fault means the k-th word access of
that loop fails (the loop aborts there, as in the source). `postRegs` is
the target's register state observed after the remote call ran. -/
structure InjFaults where
  libraryPathOk : Bool
  attachOk : Bool
  waitAttachStopped : Bool
  getRegs1Ok : Bool
  dlopenAddr : Option Nat
  stringReadFault : Option Nat
  stringPokeFault : Option Nat
  getRegs2Ok : Bool
  slotReadOk : Bool
  slotPokeOk : Bool
  codeReadFault : Option Nat
  codePokeFault : Option Nat
  setRegsOk : Bool
  contOk : Bool
  waitCallOk : Bool
  stoppedAtTrap : Bool
  getRegs3Ok : Bool
  postRegs : Regs

/-- Does a read/poke fault hit a loop of `n` word accesses? -/
def faultHits : Option Nat → Nat → Bool
  | some k, n => decide (k < n)
  | none, _ => false

/-- The `POKEDATA` loop of `writeRemote` / the stub write of `callRemote`:
write the words in order; a fault at index `k` aborts after the first `k`
writes. -/
def pokeWords (m : Mem) (base : Nat) (vals : List Nat) (fault : Option Nat) :
    Mem × Bool :=
  match fault with
  | some k =>
    if k < vals.length then
      (writeWords m (((wordAddrs base vals.length).zip vals).take k), false)
    else (writeWords m ((wordAddrs base vals.length).zip vals), true)
  | none => (writeWords m ((wordAddrs base vals.length).zip vals), true)

/-- `PtraceInjector::writeRemote`: back up the target region via the
`readRemote` `PEEKDATA` loop (on success the backup holds exactly the
current words of the region, inlined here; a read fault aborts with no
write), then write the words; on a partial poke failure the backup is
written back and cleared. -/
def writeRemoteW (m : Mem) (addr : Nat) (words : List Nat)
    (readFault pokeFault : Option Nat) : Mem × Option MemoryBackup :=
  if faultHits readFault words.length then (m, none)
  else
    let saved := (wordAddrs addr words.length).map m
    let r := pokeWords m addr words pokeFault
    if r.2 then (r.1, some ⟨addr, saved⟩) else (restoreMemory r.1 ⟨addr, saved⟩, none)

/-- The `& ~0x7` stack alignment of the path scratch address. -/
def alignDown8 (x : Nat) : Nat := x - x % 8

/-- The `& ~0xF` alignment of the code scratch address. -/
def alignDown16 (x : Nat) : Nat := x - x % 16

/-- The 16-byte call stub (`movabs rax, functionAddr; call rax; int3;`
padded with `nop`), packed into two little-endian words as the source's
`memcpy` does. -/
def stubWords (functionAddr : Nat) : List Nat :=
  [0x48 + 0xB8 * 2 ^ 8 + functionAddr % 2 ^ 48 * 2 ^ 16,
    functionAddr / 2 ^ 48 % 2 ^ 16 + 0xFF * 2 ^ 16 + 0xD0 * 2 ^ 24 + 0xCC * 2 ^ 32 +
      0x90 * 2 ^ 40 + 0x90 * 2 ^ 48 + 0x90 * 2 ^ 56]

/-- `PtraceInjector::callRemote`: capture registers, load the arguments,
reserve the return slot and code scratch below the stack pointer, back up
and patch both, point `rip` at the stub and `rsp` at the return slot,
resume, wait for the trap, read the result register, and restore memory
and registers on every exit path. -/
def callRemote (f : InjFaults) (t : Target) (functionAddr : Nat) (args : List Nat) :
    Target × Option Nat :=
  if !f.getRegs2Ok then (t, none)
  else
    let original := t.regs
    let regs1 : Regs := { original with
      rdi := args.getD 0 0, rsi := args.getD 1 0, rdx := args.getD 2 0,
      rcx := args.getD 3 0, r8 := args.getD 4 0, r9 := args.getD 5 0 }
    let codeAddress := alignDown16 ((original.rsp + (M64 - 0x200)) % M64)
    let returnSlot := (codeAddress + (M64 - 8)) % M64
    if !f.slotReadOk then (restoreStateF t original [], none)
    else
      let stackBackup : MemoryBackup := ⟨returnSlot, (wordAddrs returnSlot 1).map t.mem⟩
      if !f.slotPokeOk then (restoreStateF t original [stackBackup], none)
      else
        let m2 := memUpd t.mem returnSlot 0
        if faultHits f.codeReadFault 2 then
          (restoreStateF ⟨m2, t.regs⟩ original [stackBackup], none)
        else
          let codeBackup : MemoryBackup := ⟨codeAddress, (wordAddrs codeAddress 2).map m2⟩
          let backups := [stackBackup, codeBackup]
          let rp := pokeWords m2 codeAddress (stubWords functionAddr) f.codePokeFault
          if !rp.2 then (restoreStateF ⟨rp.1, t.regs⟩ original backups, none)
          else
            let regs2 := { regs1 with rip := codeAddress, rsp := returnSlot }
            if !f.setRegsOk then (restoreStateF ⟨rp.1, t.regs⟩ original backups, none)
            else if !f.contOk then (restoreStateF ⟨rp.1, regs2⟩ original backups, none)
            else if !f.waitCallOk then
              (restoreStateF ⟨rp.1, f.postRegs⟩ original backups, none)
            else if !f.stoppedAtTrap then
              (restoreStateF ⟨rp.1, f.postRegs⟩ original backups, none)
            else if !f.getRegs3Ok then
              (restoreStateF ⟨rp.1, f.postRegs⟩ original backups, none)
            else (restoreStateF ⟨rp.1, f.postRegs⟩ original backups, some f.postRegs.rax)

/-- The body of `PtraceInjector::inject` once attached with `dlopen`
resolved: write the path string below the stack pointer (with backup),
perform the remote call, and on every exit path restore the string region
before detaching. A null `dlopen` return is a failure that still restores
everything. -/
def injectCore (f : InjFaults) (t : Target) (dlopenA : Nat) (pathWords : List Nat) :
    Target × Bool :=
  let pathAddress := alignDown8 ((t.regs.rsp + (M64 - 0x800)) % M64)
  let wr := writeRemoteW t.mem pathAddress pathWords f.stringReadFault f.stringPokeFault
  match wr.2 with
  | none => (⟨wr.1, t.regs⟩, false)
  | some stringBackup =>
    let cr := callRemote f ⟨wr.1, t.regs⟩ dlopenA [pathAddress, 0x102]
    let t3 : Target := ⟨restoreMemory cr.1.mem stringBackup, cr.1.regs⟩
    (t3, match cr.2 with | none => false | some res => decide (res ≠ 0))

/-- `PtraceInjector::inject`: validate the library path, attach, resolve
the remote `dlopen` address, then run the loader body `injectCore`. -/
def injectRun (f : InjFaults) (t : Target) (pathWords : List Nat) : Target × Bool :=
  if !f.libraryPathOk then (t, false)
  else if !f.attachOk then (t, false)
  else if !f.waitAttachStopped then (t, false)
  else if !f.getRegs1Ok then (t, false)
  else
    match f.dlopenAddr with
    | none => (t, false)
    | some dlopenA => injectCore f t dlopenA pathWords

/-! ## JSON values

A minimal model of the QJsonValue type as used by the probe session:
null/undefined, booleans, numbers (the session only produces and consumes
integral values), strings, arrays and objects. Objects are association
lists in insertion order; the session handlers build each outgoing object
with pairwise-distinct keys, so list lookup matches QJsonObject lookup. -/

inductive Jv where
  | nullJ
  | boolJ (b : Bool)
  | numJ (n : Int)
  | strJ (s : String)
  | arrJ (xs : List Jv)
  | objJ (fields : List (String × Jv))

/-- A JSON object: field list in insertion order. -/
abbrev JObj := List (String × Jv)

/-- `QJsonObject::value`: the value stored under a key
(Undefined — modelled as null — when absent). -/
def jval (o : JObj) (k : String) : Jv :=
  match o.find? (fun p => p.1 = k) with
  | some p => p.2
  | none => Jv.nullJ

/-- `QJsonObject::contains`. -/
def jhas (o : JObj) (k : String) : Bool :=
  (o.find? (fun p => p.1 = k)).isSome

/-- `QJsonValue::toString` with its default: the string value, or an empty
string for any non-string. -/
def jvToString : Jv → String
  | Jv.strJ s => s
  | _ => ""

/-- `QJsonValue::toInt(def)`: the numeric value, or the supplied default
for any non-number. -/
def jvToInt : Jv → Int → Int
  | Jv.numJ n, _ => n
  | _, d => d

/-! ## Hexadecimal node ids

`makeNodeId` in src/probe/src/probe.cpp renders the object address with
`QString::number(quintptr(object), 16)`. -/

/-- A lowercase hexadecimal digit character. -/
def hexDigitChar (d : Nat) : Char :=
  match d with
  | 0 => '0' | 1 => '1' | 2 => '2' | 3 => '3' | 4 => '4'
  | 5 => '5' | 6 => '6' | 7 => '7' | 8 => '8' | 9 => '9'
  | 10 => 'a' | 11 => 'b' | 12 => 'c' | 13 => 'd' | 14 => 'e'
  | _ => 'f'

/-- Accumulator loop producing the big-endian hex digits of `n` in front of
`acc`; `fuel ≥ n` suffices for full evaluation. -/
def toHexAux : Nat → Nat → List Char → List Char
  | 0, _, acc => acc
  | fuel + 1, n, acc =>
    if n = 0 then acc else toHexAux fuel (n / 16) (hexDigitChar (n % 16) :: acc)

/-- `QString::number(n, 16)` for an unsigned value. -/
def toHex (n : Nat) : String :=
  if n = 0 then "0" else String.mk (toHexAux n n [])

/-- `makeNodeId`: the id string derived from the object address. -/
def makeNodeId (addr : Nat) : String :=
  "node_" ++ toHex addr

/-- Numeric value of a lowercase hex digit character (left inverse used for
the injectivity proof). -/
def hexVal (c : Char) : Nat :=
  if c.toNat ≤ 57 then c.toNat - 48 else c.toNat - 87

/-- Big-endian value of a hex digit string. -/
def parseHex (s : List Char) : Nat :=
  s.foldl (fun a c => a * 16 + hexVal c) 0

/-- Number of hex digits of `n` (0 for 0); proof-only measure. -/
def hexLen (n : Nat) : Nat :=
  if n = 0 then 0 else hexLen (n / 16) + 1
decreasing_by exact Nat.div_lt_self (Nat.pos_of_ne_zero (by assumption)) (by omega)

/-! ## Association-list model of QHash

`QHash::insert` overwrites the value stored under an existing key. -/

/-- Lookup in an association list. -/
def assocLookup {α β : Type} [DecidableEq α] : List (α × β) → α → Option β
  | [], _ => none
  | (a, b) :: t, k => if a = k then some b else assocLookup t k

/-- Overwrite-insert into an association list. -/
def assocInsert {α β : Type} [DecidableEq α] : List (α × β) → α → β → List (α × β)
  | [], k, v => [(k, v)]
  | (a, b) :: t, k, v => if a = k then (k, v) :: t else (a, b) :: assocInsert t k v

/-! ## Probe session state machine

Embedding of `ProbeConnection` from src/probe/src/probe.cpp. The live
QObject graph of the target application is an oracle environment: children
lists, class/object names and serialized property maps are functions of the
object address (the Qt meta-object reflection boundary), and `live`
models QPointer validity. The recursive graph walks take an explicit fuel
argument (a model artifact: the real object tree is finite and acyclic;
all theorems hold for every fuel value). -/

/-- The target-application environment seen by one probe connection. -/
structure PEnv where
  serverName : String
  appName : String
  appPid : Int
  now : Int
  children : Nat → List Nat
  className : Nat → String
  objectName : Nat → String
  propsOf : Nat → List (String × Jv)
  live : Nat → Bool
  candidates : List Nat
  parentOf : Nat → Option Nat

/-- The mutable session state of a `ProbeConnection`: the handshake flag,
the id maps, the parent map, the tracked set, the current selection and the
root-rescan timer flag. -/
structure PSt where
  handshakeComplete : Bool
  idsByObject : List (Nat × String)
  objectById : List (String × Nat)
  parentByObject : List (Nat × String)
  tracked : List Nat
  selectedId : String
  pollActive : Bool

/-- The freshly constructed session state. -/
def initialPSt : PSt :=
  ⟨false, [], [], [], [], "", false⟩

/-- `ProbeConnection::ensureIdForObject`: reuse the id stored for this
object, refreshing the reverse map, or mint `makeNodeId` and record both
directions. -/
def ensureIdForObject (st : PSt) (addr : Nat) : String × PSt :=
  match assocLookup st.idsByObject addr with
  | some id => (id, { st with objectById := assocInsert st.objectById id addr })
  | none =>
    let id := makeNodeId addr
    (id, { st with
            idsByObject := assocInsert st.idsByObject addr id,
            objectById := assocInsert st.objectById id addr })

/-- `ensureIdForObject` mapped over a children list (the `childIds` loop of
`serializeNode`). -/
def ensureIdsForList (st : PSt) : List Nat → List String × PSt
  | [] => ([], st)
  | c :: cs =>
    let r1 := ensureIdForObject st c
    let r2 := ensureIdsForList r1.2 cs
    (r1.1 :: r2.1, r2.2)

/-- `ProbeConnection::serializeProperties`: the property map of an object,
supplied by the reflection oracle of the environment. -/
def serializeProperties (env : PEnv) (addr : Nat) : List (String × Jv) :=
  env.propsOf addr

/-- `ProbeConnection::serializeNode`: the JSON node for one object (id,
optional parentId, class/object name, address, childIds, properties; the
widget/window info blocks are Qt-side attribute lookups omitted from the
model). Ensures ids for the object and all its direct children. -/
def serializeNode (env : PEnv) (st : PSt) (addr : Nat) (parentId : String) :
    JObj × PSt :=
  let r1 := ensureIdForObject st addr
  let r2 := ensureIdsForList r1.2 (env.children addr)
  let props := serializeProperties env addr
  let node : JObj :=
    [("id", Jv.strJ r1.1)] ++
      (if parentId ≠ "" then [("parentId", Jv.strJ parentId)] else []) ++
      [("className", Jv.strJ (env.className addr)),
       ("objectName", Jv.strJ (env.objectName addr)),
       ("address", Jv.strJ ("0x" ++ toHex addr))] ++
      (if r2.1 ≠ [] then [("childIds", Jv.arrJ (r2.1.map Jv.strJ))] else []) ++
      (if props.isEmpty then [] else [("properties", Jv.objJ props)])
  (node, r2.2)

/-- The frame emitted by `ProbeConnection::emitNodeAdded`. -/
def nodeAddedFrame (now : Int) (parentId : String) (node : JObj) : JObj :=
  [("type", Jv.strJ "nodeAdded"), ("timestampMs", Jv.numJ now)] ++
    (if parentId ≠ "" then [("parentId", Jv.strJ parentId)] else []) ++
    [("node", Jv.objJ node)]

/-- The non-recursive front half of `ProbeConnection::installRecursive`:
record the parent link, add the object to the tracked set (installing the
structural event filter, destruction hook and property subscriptions, which
carry no session state of their own in this model), and emit a nodeAdded
frame when announcing a freshly tracked object. -/
def trackAndAnnounce (env : PEnv) (addr : Nat) (parentId : String) (announce : Bool)
    (st : PSt) : PSt × List JObj :=
  let st1 := { st with parentByObject := assocInsert st.parentByObject addr parentId }
  let alreadyTracked := st1.tracked.contains addr
  let st2 := if alreadyTracked then st1 else { st1 with tracked := addr :: st1.tracked }
  if announce && !alreadyTracked then
    let rn := serializeNode env st2 addr parentId
    (rn.2, [nodeAddedFrame env.now parentId rn.1])
  else (st2, [])

mutual

/-- `ProbeConnection::installRecursive`: ensure an id, run the
track-and-announce front half, then recurse into the children. -/
def installRecursive (env : PEnv) : Nat → Nat → String → Bool → PSt → PSt × List JObj
  | 0, _, _, _, st => (st, [])
  | fuel + 1, addr, parentId, announce, st =>
    let r1 := ensureIdForObject st addr
    let r2 := trackAndAnnounce env addr parentId announce r1.2
    let r4 := installList env fuel (env.children addr) r1.1 announce r2.1
    (r4.1, r2.2 ++ r4.2)
termination_by fuel _ _ _ _ => (fuel, 0)

/-- The children loop of `installRecursive`. -/
def installList (env : PEnv) : Nat → List Nat → String → Bool → PSt → PSt × List JObj
  | _, [], _, _, st => (st, [])
  | fuel, c :: cs, parentId, announce, st =>
    let r1 := installRecursive env fuel c parentId announce st
    let r2 := installList env fuel cs parentId announce r1.1
    (r2.1, r1.2 ++ r2.2)
termination_by fuel cs _ _ _ => (fuel, cs.length + 1)

end

/-- The candidate-ancestor walk of `ProbeConnection::ensureRootsTracked`:
does some strict ancestor of `addr` belong to the candidate set? -/
def hasCandidateAncestor (env : PEnv) : Nat → Nat → Bool
  | 0, _ => false
  | fuel + 1, addr =>
    match env.parentOf addr with
    | none => false
    | some p => if env.candidates.contains p then true else hasCandidateAncestor env fuel p

/-- `ProbeConnection::ensureRootsTracked`: filter the candidate set down to
objects with no candidate ancestor, install each root (announcing when
requested), and return the roots. -/
def ensureRootsTracked (env : PEnv) (fuel : Nat) (st : PSt) (announce : Bool) :
    List Nat × PSt × List JObj :=
  let roots := env.candidates.filter (fun c => !(hasCandidateAncestor env fuel c))
  let r := installList env fuel roots "" announce st
  (roots, r.1, r.2)

/-- The DFS accumulator of `ProbeConnection::buildSnapshotPayload`: session
state, visited set, node array and root-id array. -/
structure VisitSt where
  st : PSt
  visited : List Nat
  nodes : List JObj
  rootIds : List String

/-- The non-recursive front half of the `visit` lambda of
`ProbeConnection::buildSnapshotPayload`, applied to an object that is not
yet visited: mark it visited, ensure its id, record it as a root when it
has no parent in the walk, and append its serialized node. Returns the
updated accumulator and the object's id. -/
def visitStep (env : PEnv) (addr : Nat) (parentId : String) (vs : VisitSt) :
    VisitSt × String :=
  let vs1 := { vs with visited := addr :: vs.visited }
  let r1 := ensureIdForObject vs1.st addr
  let vs2 := { vs1 with st := r1.2 }
  let vs3 :=
    if parentId = "" then { vs2 with rootIds := vs2.rootIds ++ [r1.1] } else vs2
  let rn := serializeNode env vs3.st addr parentId
  ({ vs3 with st := rn.2, nodes := vs3.nodes ++ [rn.1] }, r1.1)

mutual

/-- The `visit` lambda of `ProbeConnection::buildSnapshotPayload`: skip
already-visited objects, otherwise run the visit front half and recurse
into the children. -/
def visitNode (env : PEnv) : Nat → Nat → String → VisitSt → VisitSt
  | 0, _, _, vs => vs
  | fuel + 1, addr, parentId, vs =>
    if vs.visited.contains addr then vs
    else
      let s := visitStep env addr parentId vs
      visitChildren env fuel (env.children addr) s.2 s.1
termination_by fuel _ _ _ => (fuel, 0)

/-- The children loop of the snapshot `visit` lambda (also the loop over
the roots). -/
def visitChildren (env : PEnv) : Nat → List Nat → String → VisitSt → VisitSt
  | _, [], _, vs => vs
  | fuel, c :: cs, parentId, vs =>
    visitChildren env fuel cs parentId (visitNode env fuel c parentId vs)
termination_by fuel cs _ _ => (fuel, cs.length + 1)

end

/-- `ProbeConnection::buildSnapshotPayload`: track the current roots, walk
the graph depth-first, and assemble the snapshot frame. -/
def buildSnapshotPayload (env : PEnv) (fuel : Nat) (st : PSt) : JObj × PSt :=
  let er := ensureRootsTracked env fuel st false
  let vs := visitChildren env fuel er.1 "" ⟨er.2.1, [], [], []⟩
  let payload : JObj :=
    [("type", Jv.strJ "snapshot"), ("timestampMs", Jv.numJ env.now),
     ("protocolVersion", Jv.numJ kVersion),
     ("serverName", Jv.strJ env.serverName),
     ("nodes", Jv.arrJ (vs.nodes.map Jv.objJ)),
     ("rootIds", Jv.arrJ (vs.rootIds.map Jv.strJ))] ++
      (if vs.st.selectedId ≠ "" then [("selection", Jv.strJ vs.st.selectedId)] else [])
  (payload, vs.st)

/-- The frame built by `ProbeConnection::sendError`. -/
def errorFrame (now : Int) (code text : String) (context : JObj) : JObj :=
  [("type", Jv.strJ "error"), ("timestampMs", Jv.numJ now),
   ("code", Jv.strJ code), ("message", Jv.strJ text)] ++
    (if context.isEmpty then [] else [("context", Jv.objJ context)])

/-- The hello frame built by `ProbeConnection::sendHello`. -/
def helloFrame (env : PEnv) : JObj :=
  [("type", Jv.strJ "hello"), ("timestampMs", Jv.numJ env.now),
   ("protocolVersion", Jv.numJ kVersion),
   ("serverName", Jv.strJ env.serverName),
   ("applicationPid", Jv.numJ env.appPid),
   ("applicationName", Jv.strJ env.appName)]

/-- The `requestId` echo pattern shared by the handlers: copy the request's
`requestId` value verbatim when the key is present. -/
def echoRequestId (msg : JObj) (fields : JObj) : JObj :=
  if jhas msg "requestId" then fields ++ [("requestId", jval msg "requestId")]
  else fields

/-- The result of handling one message: the new session state, the frames
written to the socket, and whether `disconnectFromServer` was called. -/
structure HRes where
  st : PSt
  out : List JObj
  disconnects : Bool

/-- `ProbeConnection::cleanup`: untrack everything and clear the id maps,
the parent map, the tracked set and the selection. -/
def cleanupPSt (st : PSt) : PSt :=
  { st with
      idsByObject := [], objectById := [], parentByObject := [],
      tracked := [], selectedId := "" }

/-- `ProbeConnection::handleAttach`. -/
def handleAttach (env : PEnv) (fuel : Nat) (st : PSt) (msg : JObj) : HRes :=
  if st.handshakeComplete then
    ⟨st, [errorFrame env.now "alreadyAttached" "Attach has already been completed." []], false⟩
  else
    let clientVersion := jvToInt (jval msg "protocolVersion") (-1)
    if clientVersion ≠ kVersion then
      ⟨st,
        [errorFrame env.now "protocolMismatch"
          "Protocol mismatch between client and helper."
          [("serverVersion", Jv.numJ kVersion), ("clientVersion", Jv.numJ clientVersion)]],
        true⟩
    else
      let st1 := { st with handshakeComplete := true }
      let er := ensureRootsTracked env fuel st1 false
      ⟨{ er.2.1 with pollActive := true }, helloFrame env :: er.2.2, false⟩

/-- `ProbeConnection::handleDetach`. -/
def handleDetach (env : PEnv) (st : PSt) (msg : JObj) : HRes :=
  if !st.handshakeComplete then
    ⟨st, [errorFrame env.now "invalidState" "Cannot detach before completing attach." []], false⟩
  else
    let goodbye :=
      echoRequestId msg [("type", Jv.strJ "goodbye"), ("timestampMs", Jv.numJ env.now)]
    ⟨{ cleanupPSt st with handshakeComplete := false, pollActive := false },
      [goodbye], true⟩

/-- `ProbeConnection::handleSnapshotRequest`. -/
def handleSnapshotRequest (env : PEnv) (fuel : Nat) (st : PSt) (msg : JObj) : HRes :=
  let r := buildSnapshotPayload env fuel st
  ⟨r.2, [echoRequestId msg r.1], false⟩

/-- `ProbeConnection::handlePropertiesRequest`. The reverse map stores
QPointers; a missing key or a dead pointer (per the `live` oracle) is the
unknown-node case. -/
def handlePropertiesRequest (env : PEnv) (st : PSt) (msg : JObj) : HRes :=
  let id := jvToString (jval msg "id")
  if id = "" then
    ⟨st, [errorFrame env.now "invalidRequest" "propertiesRequest requires an id." []], false⟩
  else
    match assocLookup st.objectById id with
    | none =>
      ⟨st,
        [errorFrame env.now "unknownNode" "No QObject is tracked with the requested id."
          [("id", Jv.strJ id)]], false⟩
    | some addr =>
      if !env.live addr then
        ⟨st,
          [errorFrame env.now "unknownNode" "No QObject is tracked with the requested id."
            [("id", Jv.strJ id)]], false⟩
      else
        ⟨st,
          [echoRequestId msg
            [("type", Jv.strJ "properties"), ("timestampMs", Jv.numJ env.now),
             ("id", Jv.strJ id),
             ("properties", Jv.objJ (serializeProperties env addr))]], false⟩

/-- `ProbeConnection::handleSelectNode`. -/
def handleSelectNode (env : PEnv) (st : PSt) (msg : JObj) : HRes :=
  let id := jvToString (jval msg "id")
  if id = "" then
    ⟨st, [errorFrame env.now "invalidRequest" "selectNode requires an id." []], false⟩
  else
    match assocLookup st.objectById id with
    | none =>
      ⟨st,
        [errorFrame env.now "unknownNode" "Cannot select an unknown node."
          [("id", Jv.strJ id)]], false⟩
    | some addr =>
      if !env.live addr then
        ⟨st,
          [errorFrame env.now "unknownNode" "Cannot select an unknown node."
            [("id", Jv.strJ id)]], false⟩
      else
        ⟨{ st with selectedId := id },
          [echoRequestId msg
            [("type", Jv.strJ "selectionAck"), ("timestampMs", Jv.numJ env.now),
             ("id", Jv.strJ id)]], false⟩

/-- `ProbeConnection::handleMessage`: dispatch on the `type` field, with
the handshake guard in front. -/
def handleMessage (env : PEnv) (fuel : Nat) (st : PSt) (msg : JObj) : HRes :=
  let type := jvToString (jval msg "type")
  if type = "" then
    ⟨st, [errorFrame env.now "invalidMessage" "Message missing type field." []], false⟩
  else if !st.handshakeComplete && type ≠ "attach" then
    ⟨st, [errorFrame env.now "handshakeRequired" "Must attach before sending this message." []],
      false⟩
  else if type = "attach" then handleAttach env fuel st msg
  else if type = "snapshotRequest" then handleSnapshotRequest env fuel st msg
  else if type = "propertiesRequest" then handlePropertiesRequest env st msg
  else if type = "selectNode" then handleSelectNode env st msg
  else if type = "detach" then handleDetach env st msg
  else ⟨st, [errorFrame env.now "unknownMessage" "Unknown message type." []], false⟩

/-- A concrete target environment with no objects, used by witnesses. -/
def witnessEnv : PEnv :=
  { serverName := "qt_spy_app_1", appName := "app", appPid := 1, now := 0,
    children := fun _ => [], className := fun _ => "QObject",
    objectName := fun _ => "", propsOf := fun _ => [], live := fun _ => true,
    candidates := [], parentOf := fun _ => none }

/-- A concrete target environment holding one root object (address 1) with
one child (address 2), used by witnesses. -/
def witnessTreeEnv : PEnv :=
  { serverName := "qt_spy_app_1", appName := "app", appPid := 1, now := 0,
    children := fun a => if a = 1 then [2] else [],
    className := fun _ => "QObject", objectName := fun _ => "",
    propsOf := fun _ => [], live := fun _ => true,
    candidates := [1], parentOf := fun a => if a = 2 then some 1 else none }

/-- The scalar session fields (handshake flag, selection, poll flag) that
the id-ensuring graph walks leave untouched. -/
def scalarsEq (s t : PSt) : Prop :=
  s.handshakeComplete = t.handshakeComplete ∧ s.selectedId = t.selectedId ∧
    s.pollActive = t.pollActive

/-- Invariant of the forward id map: every stored id is the `makeNodeId` of
its key. Holds for the empty map of a fresh session and is preserved by
every session operation. -/
def IdMapInv (st : PSt) : Prop :=
  ∀ a i, assocLookup st.idsByObject a = some i → i = makeNodeId a

/-- Object `a` is bound in both id maps with its canonical id. -/
def objBound (st : PSt) (a : Nat) : Prop :=
  assocLookup st.idsByObject a = some (makeNodeId a) ∧
    assocLookup st.objectById (makeNodeId a) = some a

/-- State evolution contract of the id-ensuring walks: scalars unchanged,
the id-map invariant holds afterwards, and established bindings persist. -/
def mapsExtend (s t : PSt) : Prop :=
  scalarsEq t s ∧ IdMapInv t ∧ (∀ a, objBound s a → objBound t a)

/-- The id fields of a serialized node list. -/
def nodeIds (ns : List JObj) : List String :=
  ns.map fun n => jvToString (jval n "id")

/-- Recognizer for goodbye frames among a session's outputs. -/
def isGoodbyeFrame (o : JObj) : Bool :=
  jvToString (jval o "type") == "goodbye"

/-- Bookkeeping contract of one snapshot DFS segment: `L` is the list of
freshly visited object addresses, in visit order. The visited set grows by
exactly `L` (reversed, since insertion conses), the node array grows by the
canonical ids of `L` in order, the fresh addresses are distinct and were
not visited before, the session maps evolve per `mapsExtend`, and every
fresh address ends up bound in both id maps. -/
structure VisitSpec (vs vs2 : VisitSt) (L : List Nat) : Prop where
  visited_eq : vs2.visited = L.reverse ++ vs.visited
  nodes_eq : nodeIds vs2.nodes = nodeIds vs.nodes ++ L.map makeNodeId
  nodup : L.Nodup
  fresh : ∀ o ∈ L, o ∉ vs.visited
  extend : mapsExtend vs.st vs2.st
  bound : ∀ o ∈ L, objBound vs2.st o

/-- The node ids appearing in a snapshot frame. -/
def snapshotNodeIds (payload : JObj) : List String :=
  match jval payload "nodes" with
  | Jv.arrJ ns =>
    ns.map fun n =>
      match n with
      | Jv.objJ f => jvToString (jval f "id")
      | _ => ""
  | _ => []

/-! ## Helper lemmas for the endpoint-name claims -/

theorem collapseUnderscores_head? :
    ∀ l : List Char, (collapseUnderscores l).head? = l.head? := by
  intro l
  induction l using collapseUnderscores.induct with
  | case1 => rfl
  | case2 c => rfl
  | case3 c d rest h ih =>
    rw [collapseUnderscores, if_pos h, ih]
    simp [h.1, h.2]
  | case4 c d rest h ih =>
    rw [collapseUnderscores, if_neg h]
    rfl

theorem collapseUnderscores_forall {p : Char → Prop} :
    ∀ l : List Char, (∀ c ∈ l, p c) → ∀ c ∈ collapseUnderscores l, p c := by
  intro l
  induction l using collapseUnderscores.induct with
  | case1 => intro _ c hc; exact absurd hc (by simp [collapseUnderscores])
  | case2 c => intro h c hc; rw [collapseUnderscores] at hc; exact h c hc
  | case3 c d rest h ih =>
    intro hall e he
    rw [collapseUnderscores, if_pos h] at he
    exact ih (fun x hx => hall x (List.mem_cons_of_mem c hx)) e he
  | case4 c d rest h ih =>
    intro hall e he
    rw [collapseUnderscores, if_neg h] at he
    rcases List.mem_cons.mp he with rfl | he
    · exact hall e (List.mem_cons_self e _)
    · exact ih (fun x hx => hall x (List.mem_cons_of_mem c hx)) e he

theorem collapseUnderscores_chain' :
    ∀ l : List Char,
      List.Chain' (fun a b => ¬(a = '_' ∧ b = '_')) (collapseUnderscores l) := by
  intro l
  induction l using collapseUnderscores.induct with
  | case1 => simp [collapseUnderscores]
  | case2 c => simp [collapseUnderscores]
  | case3 c d rest h ih =>
    rw [collapseUnderscores, if_pos h]
    exact ih
  | case4 c d rest h ih =>
    rw [collapseUnderscores, if_neg h]
    refine List.chain'_cons'.mpr ⟨?_, ih⟩
    intro y hy
    rw [collapseUnderscores_head?] at hy
    simp only [List.head?_cons, Option.mem_def, Option.some.injEq] at hy
    subst hy
    exact fun hcd => h hcd

theorem isAllowedChar_not_space {c : Char} (h : isAllowedChar c = true) :
    isSpaceChar c = false := by
  simp only [isAllowedChar, Bool.or_eq_true, Bool.and_eq_true, decide_eq_true_eq] at h
  rw [Bool.eq_false_iff]
  intro hsp
  simp only [isSpaceChar, Bool.or_eq_true, Bool.and_eq_true, decide_eq_true_eq] at hsp
  omega

theorem replaceDisallowed_allowed (s : List Char) :
    ∀ c ∈ replaceDisallowed s, isAllowedChar c = true := by
  intro c hc
  rcases List.mem_map.mp hc with ⟨d, _, rfl⟩
  by_cases hd : isAllowedChar d = true
  · simp [hd]
  · simp only [Bool.not_eq_true] at hd
    simp [hd]
    decide

theorem dropWhile_space_id {l : List Char}
    (h : ∀ c ∈ l, isSpaceChar c = false) : l.dropWhile isSpaceChar = l := by
  cases l with
  | nil => rfl
  | cons c t =>
    rw [List.dropWhile_cons]
    simp [h c (List.mem_cons_self c t)]

theorem trimChars_id {l : List Char}
    (h : ∀ c ∈ l, isSpaceChar c = false) : trimChars l = l := by
  unfold trimChars
  rw [dropWhile_space_id h, dropWhile_space_id, List.reverse_reverse]
  intro c hc
  exact h c (List.mem_reverse.mp hc)

theorem sanitize_chars_allowed (s : String) :
    ∀ c ∈ (sanitizeProcessName s).data, isAllowedChar c = true := by
  intro c hc
  unfold sanitizeProcessName at hc
  have hall : ∀ c ∈ collapseUnderscores (replaceDisallowed s.data),
      isAllowedChar c = true :=
    collapseUnderscores_forall _ (replaceDisallowed_allowed s.data)
  rw [trimChars_id (fun d hd => isAllowedChar_not_space (hall d hd))] at hc
  exact hall c hc

theorem sanitize_no_double_underscore (s : String) :
    List.Chain' (fun a b => ¬(a = '_' ∧ b = '_')) (sanitizeProcessName s).data := by
  unfold sanitizeProcessName
  have hall : ∀ c ∈ collapseUnderscores (replaceDisallowed s.data),
      isAllowedChar c = true :=
    collapseUnderscores_forall _ (replaceDisallowed_allowed s.data)
  rw [trimChars_id (fun d hd => isAllowedChar_not_space (hall d hd))]
  exact collapseUnderscores_chain' _

theorem consecutiveRetryDelays_get (k : Nat) :
    ∀ i a : Nat, i < k →
      (consecutiveRetryDelays (-1) k ⟨a⟩)[i]? =
        some (500 * min 5 (max 1 (a + i + 1))) := by
  induction k with
  | zero => intro i a h; omega
  | succ k ih =>
    intro i a h
    rw [consecutiveRetryDelays]
    have hadv : retryTimeoutAdvance (-1) ⟨a⟩ = some ⟨a + 1⟩ := by
      unfold retryTimeoutAdvance
      rw [if_neg]
      intro hcon
      omega
    rw [hadv]
    cases i with
    | zero => simp [scheduleReconnectDelay]
    | succ i =>
      rw [List.getElem?_cons_succ, ih i (a + 1) (by omega)]
      congr 2
      omega

/-- C6: with the default base delay of 500 ms, the delay scheduled for the
n-th consecutive timed reconnect attempt (no intervening successful
connection, infinite retry budget) is 500 * min(5, n) milliseconds — the
sequence 500, 1000, 1500, 2000, 2500, 2500, … capped at five times the base
delay (`Client::scheduleReconnect` / `Client::retryTimeout`,
src/cli/src/main.cpp). -/
theorem reconnect_backoff_delay (n k : Nat) (h1 : 1 ≤ n) (hk : n ≤ k) :
    (consecutiveRetryDelays (-1) k ⟨0⟩)[n - 1]? = some (500 * min 5 n) := by
  rw [consecutiveRetryDelays_get k (n - 1) 0 (by omega)]
  congr 2
  omega

/-- Witness for C6: the third consecutive retry is scheduled after 1500 ms. -/
theorem reconnect_backoff_delay_witness :
    (consecutiveRetryDelays (-1) 6 ⟨0⟩)[2]? = some (500 * min 5 3) :=
  reconnect_backoff_delay 3 6 (by decide) (by decide)

/-- C2 counterexample: a sticky action that has completed IS re-armed
(pending again) by the reconnect reset, and a completed non-sticky action is
NOT reset to pending on reconnect — the opposite of the claim, on the
concrete action target `{ kind = Id, value = "node_1" }`. -/
theorem sticky_action_rearm_counterexample :
    ((⟨ActionKind.byId, "node_1", true, false⟩ : ActionTarget).markCompleted).sticky = true ∧
    ((⟨ActionKind.byId, "node_1", true, false⟩ : ActionTarget).markCompleted).completed = true ∧
    ((⟨ActionKind.byId, "node_1", true, false⟩ :
        ActionTarget).markCompleted.resetForReconnect).pending = true ∧
    ((⟨ActionKind.byId, "node_1", false, false⟩ : ActionTarget).markCompleted).kind =
      ActionKind.noTarget ∧
    ((⟨ActionKind.byId, "node_1", false, false⟩ :
        ActionTarget).markCompleted.resetForReconnect).pending = false := by
  decide

/-- C2 (amended): for every deferred one-shot client action with a target,
if the action is marked sticky then completing it makes it non-pending but
the reconnect reset re-arms it (it becomes pending again on every
reconnect); if it is not marked sticky, completing it clears its target
entirely and it is never pending again after a reconnect
(`ActionTarget::markCompleted` / `ActionTarget::resetForReconnect`,
src/cli/src/main.cpp). -/
theorem action_target_reconnect_behavior (t : ActionTarget)
    (h : t.kind ≠ ActionKind.noTarget) :
    (t.sticky = true →
      t.markCompleted.pending = false ∧
      t.markCompleted.resetForReconnect.pending = true) ∧
    (t.sticky = false →
      t.markCompleted.kind = ActionKind.noTarget ∧
      t.markCompleted.resetForReconnect.pending = false) := by
  constructor <;> intro hs <;>
    simp [ActionTarget.markCompleted, ActionTarget.resetForReconnect,
      ActionTarget.pending, hs, h]

/-- Witness for C2 (amended), at the concrete sticky select-target
`{ kind = Id, value = "node_9" }`. -/
theorem action_target_reconnect_behavior_witness :
    (⟨ActionKind.byId, "node_9", true, false⟩ : ActionTarget).markCompleted.pending = false ∧
    (⟨ActionKind.byId, "node_9", true, false⟩ :
        ActionTarget).markCompleted.resetForReconnect.pending = true :=
  (action_target_reconnect_behavior ⟨ActionKind.byId, "node_9", true, false⟩
    (by decide)).1 rfl

/-- C9: the Agent's derived endpoint name is `qt_spy_<sanitized>_<pid>` when
a process name resolves to a non-empty sanitized form, and the purely
numeric `qt_spy_<pid>` otherwise; sanitization keeps only characters from
`[A-Za-z0-9_]` and never leaves two adjacent underscores
(`sanitizeProcessName` / `defaultServerName`, src/probe/src/probe.cpp). -/
theorem endpoint_name_spec (appName : String) (procComm : Option String) (pid : Nat) :
    (resolvedProcessName appName procComm ≠ "" →
      defaultServerName appName procComm pid =
        "qt_spy_" ++ resolvedProcessName appName procComm ++ "_" ++ toString pid) ∧
    (resolvedProcessName appName procComm = "" →
      defaultServerName appName procComm pid = "qt_spy_" ++ toString pid) ∧
    (∀ c ∈ (sanitizeProcessName appName).data, isAllowedChar c = true) ∧
    List.Chain' (fun a b => ¬(a = '_' ∧ b = '_')) (sanitizeProcessName appName).data := by
  refine ⟨?_, ?_, sanitize_chars_allowed appName, sanitize_no_double_underscore appName⟩
  · intro h
    unfold defaultServerName
    rw [if_pos h]
  · intro h
    unfold defaultServerName
    rw [if_neg (by simp [h])]

/-- Witness for C9: the application name "My App!" sanitizes to "My_App_"
and yields the endpoint name for pid 42. -/
theorem endpoint_name_spec_witness :
    defaultServerName "My App!" none 42 =
      "qt_spy_" ++ resolvedProcessName "My App!" none ++ "_" ++ toString 42 :=
  (endpoint_name_spec "My App!" none 42).1 (by decide)

/-! ## Frame codec lemmas -/

theorem readBE32_be32 (n : Nat) (rest : List Nat) (h : n < 2 ^ 32) :
    readBE32 (be32 n ++ rest) = n := by
  simp only [be32, List.cons_append, List.nil_append, readBE32]
  omega

theorem readBE32_append {x : List Nat} (y : List Nat) (h : 4 ≤ x.length) :
    readBE32 (x ++ y) = readBE32 x := by
  cases x with
  | nil => simp at h
  | cons a x =>
    cases x with
    | nil => simp at h
    | cons b x =>
      cases x with
      | nil => simp at h
      | cons c x =>
        cases x with
        | nil => simp at h
        | cons d x => rfl

theorem processIncomingBuffer_stop (l : List Nat)
    (h : l.length < 4 ∨ l.length < readBE32 l + 4) :
    processIncomingBuffer l = ([], l) := by
  rw [processIncomingBuffer]
  rcases h with h | h
  · rw [dif_pos h]
  · by_cases h4 : l.length < 4
    · rw [dif_pos h4]
    · rw [dif_neg h4, if_pos h]

theorem processIncomingBuffer_step (l : List Nat) (h4 : ¬ l.length < 4)
    (hc : ¬ l.length < readBE32 l + 4) :
    processIncomingBuffer l =
      (((l.drop 4).take (readBE32 l)) :: (processIncomingBuffer (l.drop (readBE32 l + 4))).1,
        (processIncomingBuffer (l.drop (readBE32 l + 4))).2) := by
  rw [processIncomingBuffer]
  rw [dif_neg h4, if_neg hc]

theorem processIncomingBuffer_append (x y : List Nat) :
    processIncomingBuffer (x ++ y) =
      ((processIncomingBuffer x).1 ++
          (processIncomingBuffer ((processIncomingBuffer x).2 ++ y)).1,
        (processIncomingBuffer ((processIncomingBuffer x).2 ++ y)).2) := by
  induction x using processIncomingBuffer.induct with
  | case1 x h4 =>
    rw [processIncomingBuffer_stop x (Or.inl h4)]
    simp
  | case2 x h4 len hc =>
    rw [processIncomingBuffer_stop x (Or.inr hc)]
    simp
  | case3 x h4 len hc ih =>
    have hlet : len = readBE32 x := rfl
    rw [hlet] at hc ih
    have hlen : 4 ≤ x.length := by omega
    have hb : readBE32 (x ++ y) = readBE32 x := readBE32_append y hlen
    have h4xy : ¬ (x ++ y).length < 4 := by simp [List.length_append]; omega
    have hcxy : ¬ (x ++ y).length < readBE32 (x ++ y) + 4 := by
      rw [hb]; simp only [List.length_append]; omega
    rw [processIncomingBuffer_step (x ++ y) h4xy hcxy,
      processIncomingBuffer_step x h4 hc, hb]
    have hdrop4 : (x ++ y).drop 4 = x.drop 4 ++ y := by
      rw [List.drop_append_eq_append_drop]
      have : 4 - x.length = 0 := by omega
      rw [this, List.drop_zero]
    have htake : ((x ++ y).drop 4).take (readBE32 x) = (x.drop 4).take (readBE32 x) := by
      rw [hdrop4, List.take_append_eq_append_take]
      have : readBE32 x - (x.drop 4).length = 0 := by
        simp only [List.length_drop]; omega
      rw [this, List.take_zero, List.append_nil]
    have hdropl : (x ++ y).drop (readBE32 x + 4) = x.drop (readBE32 x + 4) ++ y := by
      rw [List.drop_append_eq_append_drop]
      have : readBE32 x + 4 - x.length = 0 := by omega
      rw [this, List.drop_zero]
    rw [htake, hdropl, ih]
    simp

theorem processIncomingBuffer_residual (l : List Nat) :
    processIncomingBuffer ((processIncomingBuffer l).2) =
      ([], (processIncomingBuffer l).2) := by
  induction l using processIncomingBuffer.induct with
  | case1 x h4 =>
    rw [processIncomingBuffer_stop x (Or.inl h4), processIncomingBuffer_stop x (Or.inl h4)]
  | case2 x h4 len hc =>
    rw [processIncomingBuffer_stop x (Or.inr hc), processIncomingBuffer_stop x (Or.inr hc)]
  | case3 x h4 len hc ih =>
    have hlet : len = readBE32 x := rfl
    rw [hlet] at hc ih
    rw [processIncomingBuffer_step x h4 hc]
    exact ih

theorem processIncomingBuffer_encodeFrame (p rest : List Nat) (h : p.length < 2 ^ 32) :
    processIncomingBuffer (encodeFrame p ++ rest) =
      (p :: (processIncomingBuffer rest).1, (processIncomingBuffer rest).2) := by
  have hmod : p.length % 2 ^ 32 = p.length := Nat.mod_eq_of_lt h
  have hbuf : encodeFrame p ++ rest = be32 (p.length % 2 ^ 32) ++ (p ++ rest) := by
    rw [encodeFrame, List.append_assoc]
  have hread : readBE32 (encodeFrame p ++ rest) = p.length := by
    rw [hbuf, readBE32_be32 _ _ (by omega), hmod]
  have hlen : (encodeFrame p ++ rest).length = 4 + p.length + rest.length := by
    simp [encodeFrame, be32, List.length_append]
    omega
  have h4 : ¬ (encodeFrame p ++ rest).length < 4 := by omega
  have hc : ¬ (encodeFrame p ++ rest).length < readBE32 (encodeFrame p ++ rest) + 4 := by
    rw [hread]; omega
  rw [processIncomingBuffer_step _ h4 hc, hread]
  have hdrop4 : (encodeFrame p ++ rest).drop 4 = p ++ rest := by
    rw [hbuf]
    have h4len : (be32 (p.length % 2 ^ 32)).length = 4 := by simp [be32]
    rw [← h4len, List.drop_left]
  have htake : ((encodeFrame p ++ rest).drop 4).take p.length = p := by
    rw [hdrop4, List.take_left]
  have hdropl : (encodeFrame p ++ rest).drop (p.length + 4) = rest := by
    have : (encodeFrame p).length = p.length + 4 := by
      simp [encodeFrame, be32, List.length_append]
    rw [← this, List.drop_left]
  rw [htake, hdropl]

theorem processIncomingBuffer_stream (msgs : List (List Nat))
    (h : ∀ m ∈ msgs, m.length < 2 ^ 32) :
    processIncomingBuffer (msgs.map encodeFrame).flatten = (msgs, []) := by
  induction msgs with
  | nil =>
    simp only [List.map_nil, List.flatten_nil]
    exact processIncomingBuffer_stop [] (Or.inl (by simp))
  | cons m ms ih =>
    simp only [List.map_cons, List.flatten_cons]
    rw [processIncomingBuffer_encodeFrame m _ (h m (List.mem_cons_self m ms)),
      ih (fun x hx => h x (List.mem_cons_of_mem m hx))]

theorem feedChunks_go (chunks : List (List Nat)) :
    ∀ out buf, processIncomingBuffer buf = ([], buf) →
      chunks.foldl feedChunk (out, buf) =
        (out ++ (processIncomingBuffer (buf ++ chunks.flatten)).1,
          (processIncomingBuffer (buf ++ chunks.flatten)).2) := by
  induction chunks with
  | nil =>
    intro out buf hres
    simp only [List.foldl_nil, List.flatten_nil, List.append_nil, hres]
  | cons c cs ih =>
    intro out buf hres
    simp only [List.foldl_cons, List.flatten_cons]
    rw [feedChunk]
    rw [ih (out ++ (processIncomingBuffer (buf ++ c)).1)
      (processIncomingBuffer (buf ++ c)).2 (processIncomingBuffer_residual (buf ++ c))]
    rw [← List.append_assoc buf c cs.flatten, processIncomingBuffer_append (buf ++ c) cs.flatten]
    simp [List.append_assoc]

/-- C5: the frame codec round-trips. For every sequence of messages (given
by their JSON byte payloads, each shorter than 2^31 bytes) and every way of
splitting the concatenated encoded frames into socket reads, feeding the
reads through `BridgeClient::processIncomingBuffer` decodes exactly the
original messages, in order, with an empty remaining buffer — in
particular, encoding one message and decoding it yields a payload equal to
the original, partial frames are buffered across reads, and several
complete frames in one read are all decoded (src/bridge/src/bridge_client.cpp,
`BridgeClient::writeMessage` / `BridgeClient::processIncomingBuffer`). -/
theorem frame_codec_roundtrip (msgs chunks : List (List Nat))
    (hlen : ∀ m ∈ msgs, m.length < 2 ^ 31)
    (hstream : chunks.flatten = (msgs.map encodeFrame).flatten) :
    feedChunks chunks = (msgs, []) := by
  unfold feedChunks
  rw [feedChunks_go chunks [] [] (processIncomingBuffer_stop [] (Or.inl (by simp)))]
  simp only [List.nil_append]
  rw [hstream,
    processIncomingBuffer_stream msgs (fun m hm => lt_trans (hlen m hm) (by norm_num))]

/-- Witness for C5: the message with payload bytes `[9, 7]` is encoded as
`[0, 0, 0, 2, 9, 7]`; delivered in three partial reads it decodes back to
exactly that payload. -/
theorem frame_codec_roundtrip_witness :
    feedChunks [[0], [0, 0, 2, 9], [7]] = ([[9, 7]], []) :=
  frame_codec_roundtrip [[9, 7]] [[0], [0, 0, 2, 9], [7]] (by decide) (by decide)

/-! ## Probe session lemmas -/

theorem trackAndAnnounce_false_out (env : PEnv) (addr : Nat) (pid : String) (st : PSt) :
    (trackAndAnnounce env addr pid false st).2 = [] := by
  simp [trackAndAnnounce]

theorem install_false_out (env : PEnv) : ∀ fuel : Nat,
    (∀ addr pid st, (installRecursive env fuel addr pid false st).2 = []) ∧
    (∀ cs pid st, (installList env fuel cs pid false st).2 = []) := by
  intro fuel
  induction fuel with
  | zero =>
    refine ⟨fun addr pid st => by simp [installRecursive], ?_⟩
    intro cs
    induction cs with
    | nil => intro pid st; simp [installList]
    | cons c cs ihc =>
      intro pid st
      simp [installList, installRecursive, ihc]
  | succ fuel ih =>
    have hrec : ∀ addr pid st, (installRecursive env (fuel + 1) addr pid false st).2 = [] := by
      intro addr pid st
      rw [installRecursive]
      simp [ih.2, trackAndAnnounce_false_out]
    refine ⟨hrec, ?_⟩
    intro cs
    induction cs with
    | nil => intro pid st; simp [installList]
    | cons c cs ihc =>
      intro pid st
      simp [installList, hrec, ihc]

theorem ensureRootsTracked_false_out (env : PEnv) (fuel : Nat) (st : PSt) :
    (ensureRootsTracked env fuel st false).2.2 = [] := by
  unfold ensureRootsTracked
  exact (install_false_out env fuel).2 _ _ _

/-! ## Association-list lemmas -/

theorem assocLookup_insert_self {α β : Type} [DecidableEq α]
    (l : List (α × β)) (k : α) (v : β) :
    assocLookup (assocInsert l k v) k = some v := by
  induction l with
  | nil => simp [assocInsert, assocLookup]
  | cons p t ih =>
    obtain ⟨a, b⟩ := p
    by_cases h : a = k
    · simp [assocInsert, h, assocLookup]
    · simp [assocInsert, h, assocLookup, ih]

theorem assocLookup_insert_ne {α β : Type} [DecidableEq α]
    (l : List (α × β)) (k : α) (v : β) (q : α) (h : q ≠ k) :
    assocLookup (assocInsert l k v) q = assocLookup l q := by
  induction l with
  | nil => simp [assocInsert, assocLookup, Ne.symm h]
  | cons p t ih =>
    obtain ⟨a, b⟩ := p
    by_cases hak : a = k
    · subst hak
      simp [assocInsert, assocLookup, Ne.symm h]
    · by_cases haq : a = q
      · simp [assocInsert, hak, assocLookup, haq, h]
      · simp [assocInsert, hak, assocLookup, haq, ih]

/-! ## Hex id injectivity -/

theorem hexVal_hexDigitChar (d : Nat) (h : d < 16) :
    hexVal (hexDigitChar d) = d := by
  interval_cases d <;> decide

theorem toHexAux_foldl :
    ∀ (fuel n : Nat) (acc : List Char) (a : Nat), n ≤ fuel →
      List.foldl (fun x c => x * 16 + hexVal c) a (toHexAux fuel n acc) =
        List.foldl (fun x c => x * 16 + hexVal c) (a * 16 ^ hexLen n + n) acc := by
  intro fuel
  induction fuel with
  | zero =>
    intro n acc a hn
    have : n = 0 := by omega
    subst this
    rw [toHexAux, hexLen]
    simp
  | succ fuel ih =>
    intro n acc a hn
    by_cases hz : n = 0
    · subst hz
      rw [toHexAux, if_pos rfl, hexLen]
      simp
    · rw [toHexAux, if_neg hz]
      rw [ih (n / 16) _ _ (by omega)]
      rw [List.foldl_cons, hexVal_hexDigitChar (n % 16) (by omega)]
      have hL : hexLen n = hexLen (n / 16) + 1 := by
        rw [hexLen]
        simp [hz]
      rw [hL, pow_succ]
      congr 1
      have : a * (16 ^ hexLen (n / 16) * 16) = a * 16 ^ hexLen (n / 16) * 16 := by ring
      rw [this]
      omega

theorem parseHex_toHex (n : Nat) : parseHex (toHex n).data = n := by
  unfold toHex
  by_cases hz : n = 0
  · subst hz
    decide
  · rw [if_neg hz]
    show parseHex (toHexAux n n []) = n
    unfold parseHex
    rw [toHexAux_foldl n n [] 0 le_rfl]
    simp

theorem toHex_inj {m n : Nat} (h : (toHex m).data = (toHex n).data) : m = n := by
  have hm := parseHex_toHex m
  have hn := parseHex_toHex n
  rw [← hm, ← hn, h]

theorem makeNodeId_inj {a b : Nat} (h : makeNodeId a = makeNodeId b) : a = b := by
  unfold makeNodeId at h
  have hd : ("node_" ++ toHex a).data = ("node_" ++ toHex b).data := by rw [h]
  rw [String.data_append, String.data_append] at hd
  exact toHex_inj (List.append_cancel_left hd)

theorem makeNodeId_ne_empty (a : Nat) : makeNodeId a ≠ "" := by
  intro h
  have hd : (makeNodeId a).data = [] := by rw [h]
  unfold makeNodeId at hd
  rw [String.data_append] at hd
  simp [String.data] at hd

/-! ## State-evolution lemmas for the id-ensuring walks -/

theorem scalarsEq_refl (s : PSt) : scalarsEq s s := ⟨rfl, rfl, rfl⟩

theorem mapsExtend_refl {s : PSt} (hinv : IdMapInv s) : mapsExtend s s :=
  ⟨scalarsEq_refl s, hinv, fun _ hb => hb⟩

theorem mapsExtend_trans {s t u : PSt} (h1 : mapsExtend s t) (h2 : mapsExtend t u) :
    mapsExtend s u :=
  ⟨⟨h2.1.1.trans h1.1.1, h2.1.2.1.trans h1.1.2.1, h2.1.2.2.trans h1.1.2.2⟩,
    h2.2.1, fun a hb => h2.2.2 a (h1.2.2 a hb)⟩

theorem mapsExtend_inv {s t : PSt} (h : mapsExtend s t) : IdMapInv t := h.2.1

theorem ensureIdForObject_fst (st : PSt) (a : Nat) (hinv : IdMapInv st) :
    (ensureIdForObject st a).1 = makeNodeId a := by
  unfold ensureIdForObject
  cases h : assocLookup st.idsByObject a with
  | none => rfl
  | some i => exact hinv a i h

theorem ensureIdForObject_extend (st : PSt) (a : Nat) (hinv : IdMapInv st) :
    mapsExtend st (ensureIdForObject st a).2 ∧ objBound (ensureIdForObject st a).2 a := by
  unfold ensureIdForObject
  cases h : assocLookup st.idsByObject a with
  | some i =>
    have hid : i = makeNodeId a := hinv a i h
    subst hid
    refine ⟨⟨⟨rfl, rfl, rfl⟩, fun a' i' h' => hinv a' i' h', ?_⟩,
      h, assocLookup_insert_self _ _ _⟩
    intro b hb
    refine ⟨hb.1, ?_⟩
    by_cases hab : makeNodeId b = makeNodeId a
    · have hba : b = a := makeNodeId_inj hab
      subst hba
      rw [hab, assocLookup_insert_self]
    · rw [assocLookup_insert_ne _ _ _ _ hab]
      exact hb.2
  | none =>
    constructor
    · refine ⟨⟨rfl, rfl, rfl⟩, ?_, ?_⟩
      · intro a' i' h'
        by_cases haa : a' = a
        · subst haa
          rw [assocLookup_insert_self] at h'
          exact (Option.some.injEq _ _ ▸ h').symm
        · rw [assocLookup_insert_ne _ _ _ _ haa] at h'
          exact hinv a' i' h'
      · intro b hb
        have hba : b ≠ a := by
          intro hh
          subst hh
          rw [hb.1] at h
          cases h
        constructor
        · rw [assocLookup_insert_ne _ _ _ _ hba]
          exact hb.1
        · rw [assocLookup_insert_ne _ _ _ _ (fun hh => hba (makeNodeId_inj hh))]
          exact hb.2
    · exact ⟨assocLookup_insert_self _ _ _, assocLookup_insert_self _ _ _⟩

theorem ensureIdsForList_extend (cs : List Nat) : ∀ st : PSt, IdMapInv st →
    mapsExtend st (ensureIdsForList st cs).2 := by
  induction cs with
  | nil => intro st hinv; exact mapsExtend_refl hinv
  | cons c cs ih =>
    intro st hinv
    have h1 := (ensureIdForObject_extend st c hinv).1
    exact mapsExtend_trans h1 (ih _ (mapsExtend_inv h1))

theorem serializeNode_extend (env : PEnv) (st : PSt) (addr : Nat) (pid : String)
    (hinv : IdMapInv st) :
    mapsExtend st (serializeNode env st addr pid).2 ∧
      jvToString (jval (serializeNode env st addr pid).1 "id") = makeNodeId addr := by
  unfold serializeNode
  constructor
  · have h1 := (ensureIdForObject_extend st addr hinv).1
    exact mapsExtend_trans h1 (ensureIdsForList_extend _ _ (mapsExtend_inv h1))
  · simp [jval, jvToString, ensureIdForObject_fst st addr hinv]

theorem mapsExtend_update_parent {s : PSt} (x : List (Nat × String))
    (hinv : IdMapInv s) : mapsExtend s { s with parentByObject := x } :=
  ⟨⟨rfl, rfl, rfl⟩, hinv, fun _ hb => hb⟩

theorem mapsExtend_update_tracked {s : PSt} (x : List Nat)
    (hinv : IdMapInv s) : mapsExtend s { s with tracked := x } :=
  ⟨⟨rfl, rfl, rfl⟩, hinv, fun _ hb => hb⟩

theorem trackAndAnnounce_extend (env : PEnv) (addr : Nat) (pid : String)
    (ann : Bool) (st : PSt) (hinv : IdMapInv st) :
    mapsExtend st (trackAndAnnounce env addr pid ann st).1 := by
  have h1 : mapsExtend st
      { st with parentByObject := assocInsert st.parentByObject addr pid } :=
    mapsExtend_update_parent _ hinv
  have h2 : mapsExtend st
      { st with parentByObject := assocInsert st.parentByObject addr pid,
                tracked := addr :: st.tracked } :=
    mapsExtend_trans h1 (mapsExtend_update_tracked _ (mapsExtend_inv h1))
  simp only [trackAndAnnounce]
  by_cases htr : st.tracked.contains addr
  · simp only [htr, Bool.not_true, Bool.and_false, Bool.false_eq_true, if_true, if_false]
    exact h1
  · simp only [htr, Bool.not_false, Bool.and_true, Bool.false_eq_true, if_false]
    cases ann with
    | false =>
      simp only [Bool.false_eq_true, if_false]
      exact h2
    | true =>
      simp only [if_true]
      exact mapsExtend_trans h2 ((serializeNode_extend env _ addr pid (mapsExtend_inv h2)).1)

theorem install_extend (env : PEnv) : ∀ fuel : Nat,
    (∀ addr pid ann st, IdMapInv st →
      mapsExtend st (installRecursive env fuel addr pid ann st).1) ∧
    (∀ cs pid ann st, IdMapInv st →
      mapsExtend st (installList env fuel cs pid ann st).1) := by
  intro fuel
  induction fuel with
  | zero =>
    refine ⟨fun addr pid ann st hinv => by rw [installRecursive]; exact mapsExtend_refl hinv, ?_⟩
    intro cs
    induction cs with
    | nil => intro pid ann st hinv; rw [installList]; exact mapsExtend_refl hinv
    | cons c cs ihc =>
      intro pid ann st hinv
      rw [installList, installRecursive]
      exact ihc pid ann st hinv
  | succ fuel ih =>
    have hrec : ∀ addr pid ann st, IdMapInv st →
        mapsExtend st (installRecursive env (fuel + 1) addr pid ann st).1 := by
      intro addr pid ann st hinv
      rw [installRecursive]
      have h1 := (ensureIdForObject_extend st addr hinv).1
      have h2 := trackAndAnnounce_extend env addr pid ann _ (mapsExtend_inv h1)
      have h3 := ih.2 (env.children addr) (ensureIdForObject st addr).1 ann _
        (mapsExtend_inv h2)
      exact mapsExtend_trans (mapsExtend_trans h1 h2) h3
    refine ⟨hrec, ?_⟩
    intro cs
    induction cs with
    | nil => intro pid ann st hinv; rw [installList]; exact mapsExtend_refl hinv
    | cons c cs ihc =>
      intro pid ann st hinv
      rw [installList]
      have h1 := hrec c pid ann st hinv
      exact mapsExtend_trans h1 (ihc pid ann _ (mapsExtend_inv h1))

theorem ensureRootsTracked_extend (env : PEnv) (fuel : Nat) (st : PSt) (ann : Bool)
    (hinv : IdMapInv st) : mapsExtend st (ensureRootsTracked env fuel st ann).2.1 := by
  unfold ensureRootsTracked
  exact (install_extend env fuel).2 _ _ _ _ hinv

theorem scalarsEq_trans {s t u : PSt} (h1 : scalarsEq s t) (h2 : scalarsEq t u) :
    scalarsEq s u :=
  ⟨h1.1.trans h2.1, h1.2.1.trans h2.2.1, h1.2.2.trans h2.2.2⟩

theorem ensureIdForObject_scalars (st : PSt) (a : Nat) :
    scalarsEq (ensureIdForObject st a).2 st := by
  unfold ensureIdForObject
  cases assocLookup st.idsByObject a <;> exact ⟨rfl, rfl, rfl⟩

theorem ensureIdsForList_scalars (cs : List Nat) : ∀ st : PSt,
    scalarsEq (ensureIdsForList st cs).2 st := by
  induction cs with
  | nil => intro st; exact scalarsEq_refl st
  | cons c cs ih =>
    intro st
    exact scalarsEq_trans (ih (ensureIdForObject st c).2) (ensureIdForObject_scalars st c)

theorem serializeNode_scalars (env : PEnv) (st : PSt) (addr : Nat) (pid : String) :
    scalarsEq (serializeNode env st addr pid).2 st := by
  unfold serializeNode
  exact scalarsEq_trans (ensureIdsForList_scalars _ _) (ensureIdForObject_scalars st addr)

theorem trackAndAnnounce_scalars (env : PEnv) (addr : Nat) (pid : String)
    (ann : Bool) (st : PSt) :
    scalarsEq (trackAndAnnounce env addr pid ann st).1 st := by
  simp only [trackAndAnnounce]
  by_cases htr : st.tracked.contains addr
  · simp only [htr, Bool.not_true, Bool.and_false, Bool.false_eq_true, if_true, if_false]
    exact ⟨rfl, rfl, rfl⟩
  · simp only [htr, Bool.not_false, Bool.and_true, Bool.false_eq_true, if_false]
    cases ann with
    | false =>
      simp only [Bool.false_eq_true, if_false]
      exact ⟨rfl, rfl, rfl⟩
    | true =>
      simp only [if_true]
      exact scalarsEq_trans (serializeNode_scalars env _ addr pid) ⟨rfl, rfl, rfl⟩

theorem install_scalars (env : PEnv) : ∀ fuel : Nat,
    (∀ addr pid ann st, scalarsEq (installRecursive env fuel addr pid ann st).1 st) ∧
    (∀ cs pid ann st, scalarsEq (installList env fuel cs pid ann st).1 st) := by
  intro fuel
  induction fuel with
  | zero =>
    refine ⟨fun addr pid ann st => by rw [installRecursive]; exact scalarsEq_refl st, ?_⟩
    intro cs
    induction cs with
    | nil => intro pid ann st; rw [installList]; exact scalarsEq_refl st
    | cons c cs ihc =>
      intro pid ann st
      rw [installList, installRecursive]
      exact ihc pid ann st
  | succ fuel ih =>
    have hrec : ∀ addr pid ann st,
        scalarsEq (installRecursive env (fuel + 1) addr pid ann st).1 st := by
      intro addr pid ann st
      rw [installRecursive]
      refine scalarsEq_trans (ih.2 _ _ _ _) ?_
      exact scalarsEq_trans (trackAndAnnounce_scalars env addr pid ann _)
        (ensureIdForObject_scalars st addr)
    refine ⟨hrec, ?_⟩
    intro cs
    induction cs with
    | nil => intro pid ann st; rw [installList]; exact scalarsEq_refl st
    | cons c cs ihc =>
      intro pid ann st
      rw [installList]
      exact scalarsEq_trans (ihc pid ann _) (hrec c pid ann st)

theorem ensureRootsTracked_handshake (env : PEnv) (fuel : Nat) (st : PSt) (ann : Bool) :
    (ensureRootsTracked env fuel st ann).2.1.handshakeComplete = st.handshakeComplete := by
  unfold ensureRootsTracked
  exact ((install_scalars env fuel).2 _ _ _ _).1

theorem handleMessage_attach (env : PEnv) (fuel : Nat) (st : PSt) (msg : JObj)
    (htype : jvToString (jval msg "type") = "attach") :
    handleMessage env fuel st msg = handleAttach env fuel st msg := by
  unfold handleMessage
  rw [htype]
  simp

theorem handleAttach_mismatch (env : PEnv) (fuel : Nat) (st : PSt) (msg : JObj)
    (hstate : st.handshakeComplete = false)
    (hv : jvToInt (jval msg "protocolVersion") (-1) ≠ kVersion) :
    handleAttach env fuel st msg =
      ⟨st,
        [errorFrame env.now "protocolMismatch"
          "Protocol mismatch between client and helper."
          [("serverVersion", Jv.numJ kVersion),
           ("clientVersion", Jv.numJ (jvToInt (jval msg "protocolVersion") (-1)))]],
        true⟩ := by
  unfold handleAttach
  rw [hstate]
  simp [hv]

theorem handleAttach_versionOk (env : PEnv) (fuel : Nat) (st : PSt) (msg : JObj)
    (hstate : st.handshakeComplete = false)
    (hv : jvToInt (jval msg "protocolVersion") (-1) = kVersion) :
    handleAttach env fuel st msg =
      ⟨{ (ensureRootsTracked env fuel { st with handshakeComplete := true } false).2.1 with
          pollActive := true },
        [helloFrame env], false⟩ := by
  unfold handleAttach
  rw [hstate]
  simp [hv, ensureRootsTracked_false_out]

/-- C3: for every attach message received before the handshake is complete,
a protocol version different from the Agent's `kVersion` produces a single
error frame whose context carries both the server and the client version,
followed by a forced disconnect with the session state unchanged; a
matching version produces a single hello frame carrying the server protocol
version, the endpoint name, the application name and the application pid,
and the session transitions to Active (`ProbeConnection::handleAttach` /
`ProbeConnection::sendHello`, src/probe/src/probe.cpp). -/
theorem attach_version_gate (env : PEnv) (fuel : Nat) (st : PSt) (msg : JObj)
    (hstate : st.handshakeComplete = false)
    (htype : jvToString (jval msg "type") = "attach") :
    (jvToInt (jval msg "protocolVersion") (-1) ≠ kVersion →
      ∃ e ctx, (handleMessage env fuel st msg).out = [e] ∧
        jvToString (jval e "type") = "error" ∧
        jval e "code" = Jv.strJ "protocolMismatch" ∧
        jval e "context" = Jv.objJ ctx ∧
        jval ctx "serverVersion" = Jv.numJ kVersion ∧
        jval ctx "clientVersion" = Jv.numJ (jvToInt (jval msg "protocolVersion") (-1)) ∧
        (handleMessage env fuel st msg).disconnects = true ∧
        (handleMessage env fuel st msg).st = st) ∧
    (jvToInt (jval msg "protocolVersion") (-1) = kVersion →
      ∃ h, (handleMessage env fuel st msg).out = [h] ∧
        jvToString (jval h "type") = "hello" ∧
        jval h "protocolVersion" = Jv.numJ kVersion ∧
        jval h "serverName" = Jv.strJ env.serverName ∧
        jval h "applicationName" = Jv.strJ env.appName ∧
        jval h "applicationPid" = Jv.numJ env.appPid ∧
        (handleMessage env fuel st msg).st.handshakeComplete = true ∧
        (handleMessage env fuel st msg).disconnects = false) := by
  rw [handleMessage_attach env fuel st msg htype]
  constructor
  · intro hv
    rw [handleAttach_mismatch env fuel st msg hstate hv]
    refine ⟨_, [("serverVersion", Jv.numJ kVersion),
        ("clientVersion", Jv.numJ (jvToInt (jval msg "protocolVersion") (-1)))],
      rfl, ?_, ?_, ?_, ?_, ?_, rfl, rfl⟩ <;>
      simp [errorFrame, jval, jvToString]
  · intro hv
    rw [handleAttach_versionOk env fuel st msg hstate hv]
    refine ⟨_, rfl, ?_, ?_, ?_, ?_, ?_,
      ensureRootsTracked_handshake env fuel _ false, rfl⟩ <;>
      simp [helloFrame, jval, jvToString]

/-- Witness for C3: a concrete attach message with the matching protocol
version 1, against a fresh session, yields the hello frame and the Active
state. -/
theorem attach_version_gate_witness :
    ∃ h,
      (handleMessage witnessEnv 1 initialPSt
          [("type", Jv.strJ "attach"), ("protocolVersion", Jv.numJ 1)]).out = [h] ∧
      jvToString (jval h "type") = "hello" ∧
      jval h "protocolVersion" = Jv.numJ kVersion ∧
      jval h "serverName" = Jv.strJ witnessEnv.serverName ∧
      jval h "applicationName" = Jv.strJ witnessEnv.appName ∧
      jval h "applicationPid" = Jv.numJ witnessEnv.appPid ∧
      (handleMessage witnessEnv 1 initialPSt
          [("type", Jv.strJ "attach"), ("protocolVersion", Jv.numJ 1)]).st.handshakeComplete = true ∧
      (handleMessage witnessEnv 1 initialPSt
          [("type", Jv.strJ "attach"), ("protocolVersion", Jv.numJ 1)]).disconnects = false :=
  (attach_version_gate witnessEnv 1 initialPSt
      [("type", Jv.strJ "attach"), ("protocolVersion", Jv.numJ 1)] rfl rfl).2 rfl

/-- C10: when a session whose handshake is already complete receives a
second attach message, it emits exactly one error frame with code
alreadyAttached, stays attached with the connection open, and its tracking
state, id maps and selection are unchanged
(`ProbeConnection::handleAttach`, src/probe/src/probe.cpp). -/
theorem second_attach_rejected (env : PEnv) (fuel : Nat) (st : PSt) (msg : JObj)
    (hstate : st.handshakeComplete = true)
    (htype : jvToString (jval msg "type") = "attach") :
    (handleMessage env fuel st msg).st = st ∧
    (handleMessage env fuel st msg).disconnects = false ∧
    ∃ e, (handleMessage env fuel st msg).out = [e] ∧
      jvToString (jval e "type") = "error" ∧
      jval e "code" = Jv.strJ "alreadyAttached" := by
  rw [handleMessage_attach env fuel st msg htype]
  unfold handleAttach
  rw [hstate, if_pos rfl]
  refine ⟨rfl, rfl, _, rfl, ?_, ?_⟩ <;> simp [errorFrame, jval, jvToString]

/-- Witness for C10: a second attach against an already-attached session
with empty maps. -/
theorem second_attach_rejected_witness :
    (handleMessage witnessEnv 1 ⟨true, [], [], [], [], "", true⟩
        [("type", Jv.strJ "attach"), ("protocolVersion", Jv.numJ 1)]).st =
      ⟨true, [], [], [], [], "", true⟩ ∧
    (handleMessage witnessEnv 1 ⟨true, [], [], [], [], "", true⟩
        [("type", Jv.strJ "attach"), ("protocolVersion", Jv.numJ 1)]).disconnects = false ∧
    ∃ e, (handleMessage witnessEnv 1 ⟨true, [], [], [], [], "", true⟩
        [("type", Jv.strJ "attach"), ("protocolVersion", Jv.numJ 1)]).out = [e] ∧
      jvToString (jval e "type") = "error" ∧
      jval e "code" = Jv.strJ "alreadyAttached" :=
  second_attach_rejected witnessEnv 1 ⟨true, [], [], [], [], "", true⟩
    [("type", Jv.strJ "attach"), ("protocolVersion", Jv.numJ 1)] rfl rfl

theorem handleMessage_detach_active (env : PEnv) (fuel : Nat) (st : PSt) (msg : JObj)
    (hstate : st.handshakeComplete = true)
    (htype : jvToString (jval msg "type") = "detach") :
    handleMessage env fuel st msg = handleDetach env st msg := by
  unfold handleMessage
  rw [htype]
  simp [hstate]

theorem handleDetach_active (env : PEnv) (st : PSt) (msg : JObj)
    (hstate : st.handshakeComplete = true) :
    handleDetach env st msg =
      ⟨{ cleanupPSt st with handshakeComplete := false, pollActive := false },
        [echoRequestId msg [("type", Jv.strJ "goodbye"), ("timestampMs", Jv.numJ env.now)]],
        true⟩ := by
  unfold handleDetach
  rw [hstate]
  simp

theorem isGoodbyeFrame_goodbye (env : PEnv) (msg : JObj) :
    isGoodbyeFrame
      (echoRequestId msg [("type", Jv.strJ "goodbye"), ("timestampMs", Jv.numJ env.now)]) =
      true := by
  by_cases hreq : jhas msg "requestId" <;>
    simp [echoRequestId, hreq, isGoodbyeFrame, jval, jvToString]

/-- C7: in the Active state, processing a detach message produces exactly
one goodbye frame, echoing the request's requestId when present, closes the
session (handshake cleared, transport disconnect requested); processing the
identical detach again afterwards produces no further goodbye and leaves
the session state unchanged (the session replies with a handshakeRequired
error frame instead) (`ProbeConnection::handleDetach` /
`ProbeConnection::handleMessage`, src/probe/src/probe.cpp). -/
theorem detach_twice_single_goodbye (env : PEnv) (fuel : Nat) (st : PSt) (msg : JObj)
    (hActive : st.handshakeComplete = true)
    (htype : jvToString (jval msg "type") = "detach") :
    ((handleMessage env fuel st msg).out.filter isGoodbyeFrame).length = 1 ∧
    (∀ g ∈ (handleMessage env fuel st msg).out.filter isGoodbyeFrame,
      jhas msg "requestId" = true → jval g "requestId" = jval msg "requestId") ∧
    (handleMessage env fuel st msg).st.handshakeComplete = false ∧
    (handleMessage env fuel st msg).disconnects = true ∧
    ((handleMessage env fuel (handleMessage env fuel st msg).st msg).out.filter
        isGoodbyeFrame) = [] ∧
    (handleMessage env fuel (handleMessage env fuel st msg).st msg).st =
      (handleMessage env fuel st msg).st := by
  rw [handleMessage_detach_active env fuel st msg hActive htype,
    handleDetach_active env st msg hActive]
  have hsecond :
      handleMessage env fuel
        ({ cleanupPSt st with handshakeComplete := false, pollActive := false }) msg =
      ⟨{ cleanupPSt st with handshakeComplete := false, pollActive := false },
        [errorFrame env.now "handshakeRequired" "Must attach before sending this message." []],
        false⟩ := by
    unfold handleMessage
    rw [htype]
    simp
  rw [hsecond]
  refine ⟨?_, ?_, rfl, rfl, ?_, rfl⟩
  · simp [isGoodbyeFrame_goodbye env msg]
  · intro g hg hreq
    simp only [List.mem_filter] at hg
    have hmem : g =
        echoRequestId msg [("type", Jv.strJ "goodbye"), ("timestampMs", Jv.numJ env.now)] := by
      have := hg.1
      simpa using this
    subst hmem
    simp [echoRequestId, hreq, jval]
  · simp [isGoodbyeFrame, errorFrame, jval, jvToString]

/-- Witness for C7: a concrete detach with requestId req_1 against an
attached session, sent twice. -/
theorem detach_twice_single_goodbye_witness :
    ((handleMessage witnessEnv 1 ⟨true, [], [], [], [], "", true⟩
        [("type", Jv.strJ "detach"), ("requestId", Jv.strJ "req_1")]).out.filter
      isGoodbyeFrame).length = 1 ∧
    (∀ g ∈ (handleMessage witnessEnv 1 ⟨true, [], [], [], [], "", true⟩
        [("type", Jv.strJ "detach"), ("requestId", Jv.strJ "req_1")]).out.filter
      isGoodbyeFrame,
      jhas [("type", Jv.strJ "detach"), ("requestId", Jv.strJ "req_1")] "requestId" = true →
        jval g "requestId" =
          jval [("type", Jv.strJ "detach"), ("requestId", Jv.strJ "req_1")] "requestId") ∧
    (handleMessage witnessEnv 1 ⟨true, [], [], [], [], "", true⟩
        [("type", Jv.strJ "detach"), ("requestId", Jv.strJ "req_1")]).st.handshakeComplete =
      false ∧
    (handleMessage witnessEnv 1 ⟨true, [], [], [], [], "", true⟩
        [("type", Jv.strJ "detach"), ("requestId", Jv.strJ "req_1")]).disconnects = true ∧
    ((handleMessage witnessEnv 1
        (handleMessage witnessEnv 1 ⟨true, [], [], [], [], "", true⟩
          [("type", Jv.strJ "detach"), ("requestId", Jv.strJ "req_1")]).st
        [("type", Jv.strJ "detach"), ("requestId", Jv.strJ "req_1")]).out.filter
      isGoodbyeFrame) = [] ∧
    (handleMessage witnessEnv 1
        (handleMessage witnessEnv 1 ⟨true, [], [], [], [], "", true⟩
          [("type", Jv.strJ "detach"), ("requestId", Jv.strJ "req_1")]).st
        [("type", Jv.strJ "detach"), ("requestId", Jv.strJ "req_1")]).st =
      (handleMessage witnessEnv 1 ⟨true, [], [], [], [], "", true⟩
        [("type", Jv.strJ "detach"), ("requestId", Jv.strJ "req_1")]).st :=
  detach_twice_single_goodbye witnessEnv 1 ⟨true, [], [], [], [], "", true⟩
    [("type", Jv.strJ "detach"), ("requestId", Jv.strJ "req_1")] rfl rfl

/-! ## Snapshot DFS lemmas -/

theorem VisitSpec_refl (vs : VisitSt) (hinv : IdMapInv vs.st) : VisitSpec vs vs [] :=
  ⟨by simp, by simp, List.nodup_nil, by simp, mapsExtend_refl hinv, by simp⟩

theorem VisitSpec_trans {vs1 vs2 vs3 : VisitSt} {L1 L2 : List Nat}
    (h1 : VisitSpec vs1 vs2 L1) (h2 : VisitSpec vs2 vs3 L2) :
    VisitSpec vs1 vs3 (L1 ++ L2) := by
  have hmem1 : ∀ o ∈ L1, o ∈ vs2.visited := by
    intro o ho
    rw [h1.visited_eq]
    exact List.mem_append_left _ (List.mem_reverse.mpr ho)
  have hmem0 : ∀ o, o ∈ vs1.visited → o ∈ vs2.visited := by
    intro o ho
    rw [h1.visited_eq]
    exact List.mem_append_right _ ho
  refine ⟨?_, ?_, ?_, ?_, mapsExtend_trans h1.extend h2.extend, ?_⟩
  · rw [h2.visited_eq, h1.visited_eq, List.reverse_append, List.append_assoc]
  · rw [h2.nodes_eq, h1.nodes_eq, List.map_append, List.append_assoc]
  · refine List.Nodup.append h1.nodup h2.nodup ?_
    intro o ho1 ho2
    exact h2.fresh o ho2 (hmem1 o ho1)
  · intro o ho
    rcases List.mem_append.mp ho with ho | ho
    · exact h1.fresh o ho
    · exact fun hvis => h2.fresh o ho (hmem0 o hvis)
  · intro o ho
    rcases List.mem_append.mp ho with ho | ho
    · exact h2.extend.2.2 o (h1.bound o ho)
    · exact h2.bound o ho

theorem visitStep_spec (env : PEnv) (addr : Nat) (pid : String) (vs : VisitSt)
    (hinv : IdMapInv vs.st) (hfresh : addr ∉ vs.visited) :
    VisitSpec vs (visitStep env addr pid vs).1 [addr] ∧
      (visitStep env addr pid vs).2 = makeNodeId addr := by
  have hee := ensureIdForObject_extend vs.st addr hinv
  have hfst := ensureIdForObject_fst vs.st addr hinv
  have hse := serializeNode_extend env (ensureIdForObject vs.st addr).2 addr pid
    (mapsExtend_inv hee.1)
  have hext : mapsExtend vs.st (serializeNode env (ensureIdForObject vs.st addr).2 addr pid).2 :=
    mapsExtend_trans hee.1 hse.1
  have hbnd : objBound (serializeNode env (ensureIdForObject vs.st addr).2 addr pid).2 addr :=
    hse.1.2.2 addr hee.2
  simp only [visitStep]
  by_cases hp : pid = ""
  · rw [if_pos hp]
    refine ⟨⟨rfl, ?_, by simp, by simp [hfresh], hext, by simpa using hbnd⟩, hfst⟩
    simp [nodeIds, hse.2]
  · rw [if_neg hp]
    refine ⟨⟨rfl, ?_, by simp, by simp [hfresh], hext, by simpa using hbnd⟩, hfst⟩
    simp [nodeIds, hse.2]

theorem visit_spec (env : PEnv) : ∀ fuel : Nat,
    (∀ addr pid vs, IdMapInv vs.st →
      ∃ L, VisitSpec vs (visitNode env fuel addr pid vs) L) ∧
    (∀ cs pid vs, IdMapInv vs.st →
      ∃ L, VisitSpec vs (visitChildren env fuel cs pid vs) L) := by
  intro fuel
  induction fuel with
  | zero =>
    refine ⟨fun addr pid vs hinv => ⟨[], by rw [visitNode]; exact VisitSpec_refl vs hinv⟩, ?_⟩
    intro cs
    induction cs with
    | nil => intro pid vs hinv; exact ⟨[], by rw [visitChildren]; exact VisitSpec_refl vs hinv⟩
    | cons c cs ihc =>
      intro pid vs hinv
      rw [visitChildren, visitNode]
      exact ihc pid vs hinv
  | succ fuel ih =>
    have hrec : ∀ addr pid vs, IdMapInv vs.st →
        ∃ L, VisitSpec vs (visitNode env (fuel + 1) addr pid vs) L := by
      intro addr pid vs hinv
      rw [visitNode]
      by_cases hv : vs.visited.contains addr
      · rw [if_pos hv]
        exact ⟨[], VisitSpec_refl vs hinv⟩
      · rw [if_neg hv]
        have hfresh : addr ∉ vs.visited := by
          intro hmem
          exact hv (List.elem_eq_true_of_mem hmem)
        have hstep := visitStep_spec env addr pid vs hinv hfresh
        obtain ⟨L2, hL2⟩ := ih.2 (env.children addr) (visitStep env addr pid vs).2
          (visitStep env addr pid vs).1 (mapsExtend_inv hstep.1.extend)
        exact ⟨[addr] ++ L2, VisitSpec_trans hstep.1 hL2⟩
    refine ⟨hrec, ?_⟩
    intro cs
    induction cs with
    | nil => intro pid vs hinv; exact ⟨[], by rw [visitChildren]; exact VisitSpec_refl vs hinv⟩
    | cons c cs ihc =>
      intro pid vs hinv
      rw [visitChildren]
      obtain ⟨L1, h1⟩ := hrec c pid vs hinv
      obtain ⟨L2, h2⟩ := ihc pid (visitNode env (fuel + 1) c pid vs)
        (mapsExtend_inv h1.extend)
      exact ⟨L1 ++ L2, VisitSpec_trans h1 h2⟩

theorem buildSnapshotPayload_spec (env : PEnv) (fuel : Nat) (st : PSt)
    (hinv : IdMapInv st) :
    ∃ L : List Nat,
      snapshotNodeIds (buildSnapshotPayload env fuel st).1 = L.map makeNodeId ∧
      L.Nodup ∧
      IdMapInv (buildSnapshotPayload env fuel st).2 ∧
      ∀ o ∈ L, objBound (buildSnapshotPayload env fuel st).2 o := by
  have hroots := ensureRootsTracked_extend env fuel st false hinv
  obtain ⟨L, hL⟩ := (visit_spec env fuel).2 (ensureRootsTracked env fuel st false).1 ""
    ⟨(ensureRootsTracked env fuel st false).2.1, [], [], []⟩ (mapsExtend_inv hroots)
  refine ⟨L, ?_, hL.nodup, hL.extend.2.1, hL.bound⟩
  have hnodes := hL.nodes_eq
  simp only [nodeIds, List.map_nil, List.nil_append] at hnodes
  have hfield : jval (buildSnapshotPayload env fuel st).1 "nodes" =
      Jv.arrJ ((visitChildren env fuel (ensureRootsTracked env fuel st false).1 ""
        ⟨(ensureRootsTracked env fuel st false).2.1, [], [], []⟩).nodes.map Jv.objJ) := by
    simp [buildSnapshotPayload, jval]
  unfold snapshotNodeIds
  rw [hfield]
  show ((visitChildren env fuel (ensureRootsTracked env fuel st false).1 ""
      ⟨(ensureRootsTracked env fuel st false).2.1, [], [], []⟩).nodes.map Jv.objJ).map
      (fun n =>
        match n with
        | Jv.objJ f => jvToString (jval f "id")
        | _ => "") = L.map makeNodeId
  rw [List.map_map]
  exact hnodes

theorem handlePropertiesRequest_found (env : PEnv) (st : PSt) (a : Nat)
    (hlook : assocLookup st.objectById (makeNodeId a) = some a)
    (hlive : env.live a = true) :
    handlePropertiesRequest env st
        [("type", Jv.strJ "propertiesRequest"), ("id", Jv.strJ (makeNodeId a))] =
      ⟨st,
        [[("type", Jv.strJ "properties"), ("timestampMs", Jv.numJ env.now),
          ("id", Jv.strJ (makeNodeId a)),
          ("properties", Jv.objJ (serializeProperties env a))]], false⟩ := by
  simp only [handlePropertiesRequest]
  have hid : jvToString (jval
      [("type", Jv.strJ "propertiesRequest"), ("id", Jv.strJ (makeNodeId a))] "id") =
      makeNodeId a := by
    simp [jval, jvToString]
  rw [hid, if_neg (makeNodeId_ne_empty a), hlook]
  simp [hlive, echoRequestId, jhas]

/-- C4: every node id in a snapshot response is unique within that
snapshot, and each id is stably bound: a subsequent propertiesRequest for
the same still-live object answers with the identical id (and the id the
session would assign the object again is the same one)
(`ProbeConnection::buildSnapshotPayload` / `ProbeConnection::ensureIdForObject`
/ `ProbeConnection::handlePropertiesRequest`, src/probe/src/probe.cpp). -/
theorem snapshot_ids_unique_and_stable (env : PEnv) (fuel : Nat) (st : PSt)
    (hinv : IdMapInv st) :
    (snapshotNodeIds (buildSnapshotPayload env fuel st).1).Nodup ∧
    ∀ i ∈ snapshotNodeIds (buildSnapshotPayload env fuel st).1,
      ∃ a : Nat,
        i = makeNodeId a ∧
        (ensureIdForObject (buildSnapshotPayload env fuel st).2 a).1 = i ∧
        assocLookup (buildSnapshotPayload env fuel st).2.objectById i = some a ∧
        (env.live a = true →
          handlePropertiesRequest env (buildSnapshotPayload env fuel st).2
              [("type", Jv.strJ "propertiesRequest"), ("id", Jv.strJ i)] =
            ⟨(buildSnapshotPayload env fuel st).2,
              [[("type", Jv.strJ "properties"), ("timestampMs", Jv.numJ env.now),
                ("id", Jv.strJ i),
                ("properties", Jv.objJ (serializeProperties env a))]], false⟩) := by
  obtain ⟨L, hids, hnodup, hinv2, hbound⟩ := buildSnapshotPayload_spec env fuel st hinv
  constructor
  · rw [hids]
    exact hnodup.map fun a b h => makeNodeId_inj h
  · intro i hi
    rw [hids] at hi
    obtain ⟨a, ha, rfl⟩ := List.mem_map.mp hi
    refine ⟨a, rfl, ensureIdForObject_fst _ a hinv2, (hbound a ha).2, ?_⟩
    intro hlive
    exact handlePropertiesRequest_found env _ a (hbound a ha).2 hlive

/-- Witness for C4: a fresh session snapshotting the one-root one-child
environment. -/
theorem snapshot_ids_unique_and_stable_witness :
    (snapshotNodeIds (buildSnapshotPayload witnessTreeEnv 3 initialPSt).1).Nodup ∧
    ∀ i ∈ snapshotNodeIds (buildSnapshotPayload witnessTreeEnv 3 initialPSt).1,
      ∃ a : Nat,
        i = makeNodeId a ∧
        (ensureIdForObject (buildSnapshotPayload witnessTreeEnv 3 initialPSt).2 a).1 = i ∧
        assocLookup (buildSnapshotPayload witnessTreeEnv 3 initialPSt).2.objectById i =
          some a ∧
        (witnessTreeEnv.live a = true →
          handlePropertiesRequest witnessTreeEnv
              (buildSnapshotPayload witnessTreeEnv 3 initialPSt).2
              [("type", Jv.strJ "propertiesRequest"), ("id", Jv.strJ i)] =
            ⟨(buildSnapshotPayload witnessTreeEnv 3 initialPSt).2,
              [[("type", Jv.strJ "properties"), ("timestampMs", Jv.numJ witnessTreeEnv.now),
                ("id", Jv.strJ i),
                ("properties", Jv.objJ (serializeProperties witnessTreeEnv a))]], false⟩) :=
  snapshot_ids_unique_and_stable witnessTreeEnv 3 initialPSt
    (by intro a i h; simp [assocLookup, initialPSt] at h)

/-! ## Hello-timeout claims -/

theorem cliHandleHello_attached (s : CliSt) : (cliHandleHello s).1.attached = true := rfl

/-- C8 counterexample: on transport success the CLI client
(`Client::onConnected`, the cited code) emits exactly a retry-timer stop
and the attach message — it starts no hello timeout (and no timer at
all). -/
theorem cli_no_hello_timeout_counterexample :
    (cliOnConnected cliInit).2 = [CliEffect.stopRetryTimer, CliEffect.sendAttachMsg] ∧
    (cliOnConnected cliInit).2.all (fun e => !isTimerStart e) = true := by
  decide

/-- C8 (amended): after every successful transport connection the CLI
client sends an attach message and transitions to attached when the hello
frame arrives, but starts no hello timeout; the bounded 5-second
hello-timeout behaviour lives in the inspector's connection manager, which
sends attach, starts a single-shot 5000 ms timer, transitions to Attached
on hello (making the later timer fire a no-op), and treats expiry without
a hello — still in the Connected state — as a connection error
(`Client::onConnected` / `Client::handleHello`, src/cli/src/main.cpp;
`ConnectionManager::onSocketConnected` / `ConnectionManager::onHelloReceived`,
src/inspector/src/connection_manager.cpp). -/
theorem hello_timeout_location (s : CliSt) (c : CMSt) :
    ((cliOnConnected s).2.filter isTimerStart = [] ∧
      CliEffect.sendAttachMsg ∈ (cliOnConnected s).2 ∧
      (cliOnConnected s).1.attachSent = true ∧
      (cliHandleHello (cliOnConnected s).1).1.attached = true) ∧
    ((cmOnSocketConnected c).2 =
        [CliEffect.sendAttachMsg, CliEffect.startHelloTimeout 5000] ∧
      (cmOnSocketConnected c).1.state = CMState.connected ∧
      (cmOnHelloReceived (cmOnSocketConnected c).1).state = CMState.attachedState ∧
      cmHelloTimeoutFire (cmOnHelloReceived (cmOnSocketConnected c).1) =
        (cmOnHelloReceived (cmOnSocketConnected c).1, []) ∧
      cmHelloTimeoutFire (cmOnSocketConnected c).1 =
        (⟨CMState.errorState, 0⟩, [CliEffect.emitConnectionError])) := by
  refine ⟨⟨?_, ?_, ?_, cliHandleHello_attached _⟩, rfl, rfl, rfl, ?_, ?_⟩
  · simp [cliOnConnected, cliSendAttach, isTimerStart]
  · simp [cliOnConnected, cliSendAttach]
  · simp [cliOnConnected, cliSendAttach]
  · simp [cmHelloTimeoutFire, cmOnHelloReceived, cmOnSocketConnected]
  · simp [cmHelloTimeoutFire, cmOnSocketConnected]

/-! ## Injector restoration lemmas -/

theorem M64_eq : M64 = 18446744073709551616 := by norm_num [M64]

theorem M64_pos : 0 < M64 := by rw [M64_eq]; norm_num

theorem writeWords_notMem : ∀ (ps : List (Nat × Nat)) (m : Mem) (w : Nat),
    w ∉ ps.map Prod.fst → writeWords m ps w = m w := by
  intro ps
  induction ps with
  | nil => intro m w _; rfl
  | cons p rest ih =>
    intro m w hw
    obtain ⟨a, v⟩ := p
    simp only [List.map_cons, List.mem_cons, not_or] at hw
    rw [writeWords, ih _ w hw.2]
    simp [memUpd, hw.1]

theorem writeWords_zip_map : ∀ (addrs : List Nat) (msrc m1 : Mem) (w : Nat),
    writeWords m1 (addrs.zip (addrs.map msrc)) w = if w ∈ addrs then msrc w else m1 w := by
  intro addrs
  induction addrs with
  | nil => intro msrc m1 w; simp [writeWords]
  | cons a rest ih =>
    intro msrc m1 w
    rw [List.map_cons, List.zip_cons_cons, writeWords, ih]
    by_cases hw : w ∈ rest
    · rw [if_pos hw, if_pos (List.mem_cons_of_mem a hw)]
    · rw [if_neg hw]
      by_cases hwa : w = a
      · subst hwa
        simp [memUpd]
      · simp [memUpd, hwa, hw]

theorem wordAddrs_length (base n : Nat) : (wordAddrs base n).length = n := by
  simp [wordAddrs]

theorem restoreMemory_map (m1 msrc : Mem) (base n : Nat) (w : Nat) :
    restoreMemory m1 ⟨base, (wordAddrs base n).map msrc⟩ w =
      if w ∈ wordAddrs base n then msrc w else m1 w := by
  unfold restoreMemory
  simp only [List.length_map, wordAddrs_length]
  exact writeWords_zip_map (wordAddrs base n) msrc m1 w

theorem restore_self (mOrig : Mem) (base n : Nat) (w : Nat) :
    restoreMemory mOrig ⟨base, (wordAddrs base n).map mOrig⟩ w = mOrig w := by
  rw [restoreMemory_map]
  split <;> rfl

theorem pokeWords_outside (m : Mem) (base : Nat) (vals : List Nat) (fault : Option Nat)
    (w : Nat) (hw : w ∉ wordAddrs base vals.length) :
    (pokeWords m base vals fault).1 w = m w := by
  have hlen : (wordAddrs base vals.length).length = vals.length := wordAddrs_length _ _
  have hfull : w ∉ ((wordAddrs base vals.length).zip vals).map Prod.fst := by
    rw [List.map_fst_zip _ _ (le_of_eq hlen)]
    exact hw
  cases fault with
  | none => exact writeWords_notMem _ _ _ hfull
  | some k =>
    simp only [pokeWords]
    by_cases hk : k < vals.length
    · rw [if_pos hk]
      refine writeWords_notMem _ _ _ ?_
      intro hmem
      rw [List.map_take] at hmem
      exact hfull (List.take_subset _ _ hmem)
    · rw [if_neg hk]
      exact writeWords_notMem _ _ _ hfull

theorem wordAddrs_one (r : Nat) (hr : r < M64) : wordAddrs r 1 = [r] := by
  simp [wordAddrs, List.range_succ, Nat.mod_eq_of_lt hr]

theorem wordAddrs_two (c : Nat) : wordAddrs c 2 = [c % M64, (c + 8) % M64] := by
  simp [wordAddrs, List.range_succ]

theorem alignDown16_mod (x : Nat) : alignDown16 x % 16 = 0 := by
  unfold alignDown16
  omega

theorem alignDown16_le (x : Nat) : alignDown16 x ≤ x := by
  unfold alignDown16
  omega

theorem returnSlot_not_code (c : Nat) (hc16 : c % 16 = 0) (hcM : c < M64) :
    (c + (M64 - 8)) % M64 ∉ wordAddrs c 2 := by
  rw [wordAddrs_two]
  simp only [List.mem_cons, List.not_mem_nil, or_false, not_or]
  rw [M64_eq] at hcM ⊢
  constructor <;> omega

theorem restore_slot_only (mOrig : Mem) (r : Nat) (hrM : r < M64) (w : Nat) :
    restoreMemory (memUpd mOrig r 0) ⟨r, (wordAddrs r 1).map mOrig⟩ w = mOrig w := by
  rw [restoreMemory_map, wordAddrs_one r hrM]
  by_cases hw : w = r
  · subst hw
    simp
  · simp [hw, memUpd]

theorem restore_slot_code (mOrig : Mem) (c : Nat) (hc16 : c % 16 = 0) (hcM : c < M64)
    (m3 : Mem)
    (h3 : ∀ w, w ∉ wordAddrs c 2 → m3 w = memUpd mOrig ((c + (M64 - 8)) % M64) 0 w)
    (w : Nat) :
    List.foldl restoreMemory m3
      [⟨(c + (M64 - 8)) % M64, (wordAddrs ((c + (M64 - 8)) % M64) 1).map mOrig⟩,
        ⟨c, (wordAddrs c 2).map (memUpd mOrig ((c + (M64 - 8)) % M64) 0)⟩] w = mOrig w := by
  have hrM : (c + (M64 - 8)) % M64 < M64 := Nat.mod_lt _ M64_pos
  have hrA : (c + (M64 - 8)) % M64 ∉ wordAddrs c 2 := returnSlot_not_code c hc16 hcM
  simp only [List.foldl_cons, List.foldl_nil]
  rw [restoreMemory_map]
  by_cases hw2 : w ∈ wordAddrs c 2
  · rw [if_pos hw2]
    have hwr : w ≠ (c + (M64 - 8)) % M64 := fun h => hrA (h ▸ hw2)
    simp [memUpd, hwr]
  · rw [if_neg hw2, restoreMemory_map, wordAddrs_one _ hrM]
    by_cases hw1 : w = (c + (M64 - 8)) % M64
    · simp [hw1]
    · rw [if_neg (by simpa using hw1), h3 w hw2]
      simp [memUpd, hw1]

theorem callRemote_spec (f : InjFaults) (t : Target) (fa : Nat) (args : List Nat) :
    (∀ w, (callRemote f t fa args).1.mem w = t.mem w) ∧
      (callRemote f t fa args).1.regs = t.regs := by
  have hc16 : alignDown16 ((t.regs.rsp + (M64 - 0x200)) % M64) % 16 = 0 :=
    alignDown16_mod _
  have hcM : alignDown16 ((t.regs.rsp + (M64 - 0x200)) % M64) < M64 :=
    lt_of_le_of_lt (alignDown16_le _) (Nat.mod_lt _ M64_pos)
  have hrM : (alignDown16 ((t.regs.rsp + (M64 - 0x200)) % M64) + (M64 - 8)) % M64 < M64 :=
    Nat.mod_lt _ M64_pos
  have hmem : ∀ w,
      List.foldl restoreMemory
        (pokeWords
          (memUpd t.mem ((alignDown16 ((t.regs.rsp + (M64 - 0x200)) % M64) + (M64 - 8)) % M64) 0)
          (alignDown16 ((t.regs.rsp + (M64 - 0x200)) % M64)) (stubWords fa) f.codePokeFault).1
        [⟨(alignDown16 ((t.regs.rsp + (M64 - 0x200)) % M64) + (M64 - 8)) % M64,
            (wordAddrs ((alignDown16 ((t.regs.rsp + (M64 - 0x200)) % M64) + (M64 - 8)) % M64)
              1).map t.mem⟩,
          ⟨alignDown16 ((t.regs.rsp + (M64 - 0x200)) % M64),
            (wordAddrs (alignDown16 ((t.regs.rsp + (M64 - 0x200)) % M64)) 2).map
              (memUpd t.mem
                ((alignDown16 ((t.regs.rsp + (M64 - 0x200)) % M64) + (M64 - 8)) % M64) 0)⟩]
        w = t.mem w := by
    intro w
    exact restore_slot_code t.mem _ hc16 hcM _
      (fun u hu => pokeWords_outside _ _ (stubWords fa) f.codePokeFault u hu) w
  simp only [callRemote]
  cases hg2 : f.getRegs2Ok with
  | false =>
    rw [if_pos (by decide : (!false) = true)]
    exact ⟨fun w => rfl, rfl⟩
  | true =>
    rw [if_neg (by decide : ¬(!true) = true)]
    cases hsl : f.slotReadOk with
    | false =>
      rw [if_pos (by decide : (!false) = true)]
      exact ⟨fun w => rfl, rfl⟩
    | true =>
      rw [if_neg (by decide : ¬(!true) = true)]
      cases hsp : f.slotPokeOk with
      | false =>
        rw [if_pos (by decide : (!false) = true)]
        exact ⟨fun w => restore_self t.mem _ 1 w, rfl⟩
      | true =>
        rw [if_neg (by decide : ¬(!true) = true)]
        cases hcf : faultHits f.codeReadFault 2 with
        | true =>
          rw [if_pos (rfl : true = true)]
          exact ⟨fun w => restore_slot_only t.mem _ hrM w, rfl⟩
        | false =>
          rw [if_neg (by decide : ¬false = true)]
          cases hpk : (pokeWords
              (memUpd t.mem
                ((alignDown16 ((t.regs.rsp + (M64 - 0x200)) % M64) + (M64 - 8)) % M64) 0)
              (alignDown16 ((t.regs.rsp + (M64 - 0x200)) % M64)) (stubWords fa)
              f.codePokeFault).2 with
          | false =>
            rw [if_pos (by decide : (!false) = true)]
            exact ⟨fun w => hmem w, rfl⟩
          | true =>
            rw [if_neg (by decide : ¬(!true) = true)]
            cases hsr : f.setRegsOk with
            | false =>
              rw [if_pos (by decide : (!false) = true)]
              exact ⟨fun w => hmem w, rfl⟩
            | true =>
              rw [if_neg (by decide : ¬(!true) = true)]
              cases hco : f.contOk with
              | false =>
                rw [if_pos (by decide : (!false) = true)]
                exact ⟨fun w => hmem w, rfl⟩
              | true =>
                rw [if_neg (by decide : ¬(!true) = true)]
                cases hwc : f.waitCallOk with
                | false =>
                  rw [if_pos (by decide : (!false) = true)]
                  exact ⟨fun w => hmem w, rfl⟩
                | true =>
                  rw [if_neg (by decide : ¬(!true) = true)]
                  cases hst : f.stoppedAtTrap with
                  | false =>
                    rw [if_pos (by decide : (!false) = true)]
                    exact ⟨fun w => hmem w, rfl⟩
                  | true =>
                    rw [if_neg (by decide : ¬(!true) = true)]
                    cases hg3 : f.getRegs3Ok with
                    | false =>
                      rw [if_pos (by decide : (!false) = true)]
                      exact ⟨fun w => hmem w, rfl⟩
                    | true =>
                      rw [if_neg (by decide : ¬(!true) = true)]
                      exact ⟨fun w => hmem w, rfl⟩

theorem writeRemoteW_spec (m : Mem) (addr : Nat) (words : List Nat) (rf pf : Option Nat) :
    ((writeRemoteW m addr words rf pf).2 = none ∧
      ∀ w, (writeRemoteW m addr words rf pf).1 w = m w) ∨
    ((writeRemoteW m addr words rf pf).2 =
        some ⟨addr, (wordAddrs addr words.length).map m⟩ ∧
      ∀ w, w ∉ wordAddrs addr words.length → (writeRemoteW m addr words rf pf).1 w = m w) := by
  cases hrf : faultHits rf words.length with
  | true =>
    left
    have he : writeRemoteW m addr words rf pf = (m, none) := by
      simp only [writeRemoteW]
      rw [if_pos hrf]
    rw [he]
    exact ⟨rfl, fun w => rfl⟩
  | false =>
    cases hpk : (pokeWords m addr words pf).2 with
    | true =>
      right
      have he : writeRemoteW m addr words rf pf =
          ((pokeWords m addr words pf).1,
            some ⟨addr, (wordAddrs addr words.length).map m⟩) := by
        simp only [writeRemoteW]
        rw [if_neg (by simp [hrf]), if_pos hpk]
      rw [he]
      exact ⟨rfl, fun w hw => pokeWords_outside m addr words pf w hw⟩
    | false =>
      left
      have he : writeRemoteW m addr words rf pf =
          (restoreMemory (pokeWords m addr words pf).1
            ⟨addr, (wordAddrs addr words.length).map m⟩, none) := by
        simp only [writeRemoteW]
        rw [if_neg (by simp [hrf]), if_neg (by simp [hpk])]
      rw [he]
      refine ⟨rfl, fun w => ?_⟩
      show restoreMemory (pokeWords m addr words pf).1
        ⟨addr, (wordAddrs addr words.length).map m⟩ w = m w
      rw [restoreMemory_map]
      by_cases hw : w ∈ wordAddrs addr words.length
      · rw [if_pos hw]
      · rw [if_neg hw]
        exact pokeWords_outside m addr words pf w hw

theorem injectCore_spec (f : InjFaults) (t : Target) (dlopenA : Nat) (pathWords : List Nat) :
    (∀ w, (injectCore f t dlopenA pathWords).1.mem w = t.mem w) ∧
      (injectCore f t dlopenA pathWords).1.regs = t.regs := by
  rcases writeRemoteW_spec t.mem (alignDown8 ((t.regs.rsp + (M64 - 0x800)) % M64))
      pathWords f.stringReadFault f.stringPokeFault with ⟨h2, h1⟩ | ⟨h2, h1⟩
  · simp only [injectCore]
    rw [h2]
    exact ⟨fun w => h1 w, rfl⟩
  · simp only [injectCore]
    rw [h2]
    have hcall := callRemote_spec f
      ⟨(writeRemoteW t.mem (alignDown8 ((t.regs.rsp + (M64 - 0x800)) % M64)) pathWords
          f.stringReadFault f.stringPokeFault).1, t.regs⟩
      dlopenA [alignDown8 ((t.regs.rsp + (M64 - 0x800)) % M64), 0x102]
    refine ⟨fun w => ?_, ?_⟩
    · show restoreMemory
        (callRemote f
          ⟨(writeRemoteW t.mem (alignDown8 ((t.regs.rsp + (M64 - 0x800)) % M64)) pathWords
              f.stringReadFault f.stringPokeFault).1, t.regs⟩
          dlopenA [alignDown8 ((t.regs.rsp + (M64 - 0x800)) % M64), 0x102]).1.mem
        ⟨alignDown8 ((t.regs.rsp + (M64 - 0x800)) % M64),
          (wordAddrs (alignDown8 ((t.regs.rsp + (M64 - 0x800)) % M64))
            pathWords.length).map t.mem⟩ w = t.mem w
      rw [restoreMemory_map]
      by_cases hw : w ∈ wordAddrs (alignDown8 ((t.regs.rsp + (M64 - 0x800)) % M64))
          pathWords.length
      · rw [if_pos hw]
      · rw [if_neg hw, hcall.1 w]
        exact h1 w hw
    · show (callRemote f
          ⟨(writeRemoteW t.mem (alignDown8 ((t.regs.rsp + (M64 - 0x800)) % M64)) pathWords
              f.stringReadFault f.stringPokeFault).1, t.regs⟩
          dlopenA [alignDown8 ((t.regs.rsp + (M64 - 0x800)) % M64), 0x102]).1.regs = t.regs
      exact hcall.2

/-- C1: the ptrace injection loader leaves the target process externally
unchanged on success and on every failure path: whatever combination of
step outcomes occurs (attach, register capture, remote reads, remote
pokes — including partial poke failures — resume, wait, trap check,
`dlopen` result), after `PtraceInjector::inject` the target's remote
memory is word-for-word what it was before and its registers are the
captured originals (`PtraceInjector::inject` / `PtraceInjector::callRemote`
/ `PtraceInjector::writeRemote` / `PtraceInjector::restoreMemory`,
src/cli/src/main.cpp). -/
theorem injector_restores_target_state (f : InjFaults) (t : Target) (pathWords : List Nat) :
    (∀ w, (injectRun f t pathWords).1.mem w = t.mem w) ∧
      (injectRun f t pathWords).1.regs = t.regs := by
  simp only [injectRun]
  cases hlp : f.libraryPathOk with
  | false =>
    rw [if_pos (by decide : (!false) = true)]
    exact ⟨fun w => rfl, rfl⟩
  | true =>
    rw [if_neg (by decide : ¬(!true) = true)]
    cases hat : f.attachOk with
    | false =>
      rw [if_pos (by decide : (!false) = true)]
      exact ⟨fun w => rfl, rfl⟩
    | true =>
      rw [if_neg (by decide : ¬(!true) = true)]
      cases hwa : f.waitAttachStopped with
      | false =>
        rw [if_pos (by decide : (!false) = true)]
        exact ⟨fun w => rfl, rfl⟩
      | true =>
        rw [if_neg (by decide : ¬(!true) = true)]
        cases hg1 : f.getRegs1Ok with
        | false =>
          rw [if_pos (by decide : (!false) = true)]
          exact ⟨fun w => rfl, rfl⟩
        | true =>
          rw [if_neg (by decide : ¬(!true) = true)]
          cases hdl : f.dlopenAddr with
          | none => exact ⟨fun w => rfl, rfl⟩
          | some dA => exact injectCore_spec f t dA pathWords

end QtSpy
